import Mathlib

/-!
Verification of the Magic Mount boot-stage overlay engine
(`src/jni/daemon/bootstages.c`).

The C code is shallowly embedded as follows:

* `Node` mirrors `struct node_entry`.  The `parent` back-pointer of the C
  struct is represented positionally: a node's parent is the node whose
  `children` list contains it, and roots are the nodes handed to the
  entry points.  `module` is `Option String` (`NULL` ↦ `none`).
* A module's `system/` directory tree is a rose tree `FSEnt`
  (name, dirent `d_type`, entries of the directory when it is one).
  A `.replace` marker is an entry of that name inside a directory.
* The live filesystem and the mirror are an abstract environment `Env`
  of decidable queries, exactly the queries the C code makes
  (`access(path, F_OK)`, `lstat`-is-symlink, `opendir` of a mirror dir).
* Full paths are `List String` of components; the root component is the
  literal root name (`"/system"` or `"/vendor"`), matching
  `get_full_path`, which joins `name` fields with `/`.
* Side-effecting calls (`bind_mount`, `cp_afc`, `clone_attr`, …) are
  reified as an `Act` list in program order.  The two process-wide
  scratch buffers only matter where `buf2` is read stale
  (`clone_skeleton`'s fall-through for status-0 children), so that one
  buffer is threaded explicitly through the skeleton walk.
-/

/-! ## dirent types and status bits (bootstages.c lines 36-42, dirent.h) -/

def DT_DIR : Nat := 4
def DT_REG : Nat := 8
def DT_LNK : Nat := 10

def IS_DUMMY : Nat := 0x01
def IS_INTER : Nat := 0x02
def IS_SKEL : Nat := 0x04
def IS_MODULE : Nat := 0x08
def IS_VENDOR : Nat := 0x10

/-! ## Node structure (`struct node_entry`, lines 44-51) -/

inductive Node where
  | mk (module : Option String) (name : String) (dtype : Nat) (status : Nat)
       (children : List Node)

def Node.module : Node → Option String
  | .mk m _ _ _ _ => m

def Node.name : Node → String
  | .mk _ n _ _ _ => n

def Node.dtype : Node → Nat
  | .mk _ _ t _ _ => t

def Node.status : Node → Nat
  | .mk _ _ _ s _ => s

def Node.children : Node → List Node
  | .mk _ _ _ _ c => c

def Node.setStatus : Node → Nat → Node
  | .mk m n t _ c, s => .mk m n t s c

def Node.setChildren : Node → List Node → Node
  | .mk m n t s _, c => .mk m n t s c

def Node.setName : Node → String → Node
  | .mk m _ t s c, n => .mk m n t s c

/-- `IS_DIR(n)` / `IS_REG(n)` / `IS_LNK(n)` test `n->type` (lines 53-55). -/
def Node.isDirN (n : Node) : Bool := n.dtype == DT_DIR

def Node.isRegN (n : Node) : Bool := n.dtype == DT_REG

def Node.isLnkN (n : Node) : Bool := n.dtype == DT_LNK

/-! ## Module filesystem entries -/

/-- One entry of a module's `system/` subtree: the dirent name, the dirent
`d_type`, and — when the entry is a directory — its own entries. -/
inductive FSEnt where
  | mk (name : String) (dtype : Nat) (children : List FSEnt)

def FSEnt.name : FSEnt → String
  | .mk n _ _ => n

def FSEnt.dtype : FSEnt → Nat
  | .mk _ t _ => t

def FSEnt.children : FSEnt → List FSEnt
  | .mk _ _ c => c

/-- `access("<MOUNTPOINT>/<module><dir>/.replace", F_OK) == 0`
(line 281-282): the directory contains an entry named `.replace`. -/
def hasReplace (es : List FSEnt) : Bool :=
  es.any (fun e => e.name == ".replace")

/-! ## Environment: the queries made against the live system and mirror -/

structure Env where
  /-- `access(path, F_OK) == 0` on the live root. -/
  liveExists : List String → Bool
  /-- the live path exists and `S_ISLNK` holds of its `xstat` result. -/
  liveIsLnk : List String → Bool
  /-- `opendir(MIRRDIR ++ path)`: `none` when it fails, otherwise the
  dirent list (name, `d_type`) — including any `.`/`..` the kernel
  reports, which the loops skip. -/
  mirrorDir : List String → Option (List (String × Nat))

/-! ## `insert_child` (lines 211-236)

`insert_child(p, c)` scans `p->children` in order; on the first entry `e`
with the same name it replaces `e` by `c` in the same slot iff
`c->status > e->status` (destroying `e`'s subtree), else destroys `c` and
returns `e`; with no name match it pushes `c` at the back.  The model
returns the updated children list together with the returned node. -/

def insert_child (cs : List Node) (c : Node) : List Node × Node :=
  match cs with
  | [] => ([c], c)
  | e :: rest =>
    if e.name == c.name then
      if e.status < c.status then (c :: rest, c) else (e :: rest, e)
    else
      ((e :: (insert_child rest c).1), (insert_child rest c).2)

/-- Write back the (possibly updated) node for the slot whose first
occurrence has name `nm` — the in-place mutation of the C tree. -/
def setChild (cs : List Node) (nm : String) (n : Node) : List Node :=
  match cs with
  | [] => []
  | e :: rest =>
    if e.name == nm then n :: rest else e :: setChild rest nm n

/-! ## `construct_tree` (lines 238-304) -/

/-- The clone decision of lines 259-273, with `pn` the parent's `name`
field and `pp ++ [name]` the candidate live path stored in `buf`. -/
def clone_decision (env : Env) (pn : String) (pp : List String)
    (name : String) (dtype : Nat) : Bool :=
  if dtype == DT_LNK || !env.liveExists (pp ++ [name]) then
    true
  else if !(pn == "/system" && name == "vendor") then
    env.liveIsLnk (pp ++ [name])
  else
    false

/-- The status given to the fresh node (lines 275-292).  A node that is
neither cloned nor a directory nor a regular file keeps the `xcalloc`
status `0`. -/
def entry_status (clone : Bool) (dtype : Nat) (rep : Bool) : Nat :=
  if clone then IS_MODULE
  else if dtype == DT_DIR then (if rep then IS_MODULE else IS_INTER)
  else if dtype == DT_REG then IS_MODULE
  else 0

/-- One invocation of `construct_tree(module, parent)`, processing the
dirent list `mfs` of `<MOUNTPOINT>/<module><full_path(parent)>` and
returning the updated parent.  `pn` is `parent->name`, `pp` is
`full_path(parent)`.  Re-entry into a just-inserted child (line 294-297)
recurses when the returned node's status has `IS_SKEL | IS_INTER`; the
nested `opendir` succeeds only when the module entry is a directory, so
non-directories contribute no further entries. -/
def construct_tree (env : Env) (md : String) (pn : String) (pp : List String)
    (mfs : List FSEnt) (parent : Node) : Node :=
  match mfs with
  | [] => parent
  | FSEnt.mk name dtype children :: rest =>
    if name == "." || name == ".." then
      construct_tree env md pn pp rest parent
    else
      let clone := clone_decision env pn pp name dtype
      -- line 277: parent->status |= IS_SKEL (no overwrite of other bits)
      let parent1 := if clone then parent.setStatus (parent.status ||| IS_SKEL)
                     else parent
      let node : Node :=
        .mk (some md) name dtype (entry_status clone dtype (hasReplace children)) []
      let ic := insert_child parent1.children node
      let ret := ic.2
      let ret2 :=
        if ret.status &&& (IS_SKEL ||| IS_INTER) != 0 && dtype == DT_DIR then
          construct_tree env md name (pp ++ [name]) children ret
        else ret
      construct_tree env md pn pp rest (parent1.setChildren (setChild ic.1 name ret2))
termination_by sizeOf mfs
decreasing_by
  all_goals simp_wf
  all_goals omega

/-- The `/system` root entry created at lines 573-575: `xcalloc` zeroes
`module`/`type`, the name is `"/system"`, the status `IS_INTER`. -/
def sysRoot0 : Node := .mk none "/system" 0 IS_INTER []

/-- The per-module loop of `post_fs_data` (lines 582-630) as it affects
the tree: `construct_tree(module, sys_root)` for each overlay
contributor, in enumeration order. -/
def build_modules (env : Env) (mods : List (String × List FSEnt))
    (root : Node) : Node :=
  mods.foldl (fun r m => construct_tree env m.1 r.name ["/system"] m.2 r) root

/-! ## Reified side effects -/

/-- The side-effecting calls the boot stages make, in program order.
Paths under a special root (`MOUNTPOINT`, `MIRRDIR`, `DUMMDIR`,
`CACHEMOUNT`) carry that root as their first component. -/
inductive Act where
  | bind_mount (src dst : List String)
  | cp_afc (src dst : List String)
  | clone_attr (src dst : List String)
  | mkdir_p (p : List String)
  | mkdir (p : List String)
  | touch (p : List String)
  | rename (src dst : String)
  | resize (img : String) (size : Nat)
  | mount_img (img mnt : String)
  | umount_img (mnt : String)
  | rm_rf (p : List String)
  | clone_dir (src dst : String)
  | rmdir (p : String)
  | unlink (p : String)
  | load_prop (md : String)
  | symlink_vendor (md : String)
  | construct (md : String)
  | run_script (md stage : String)
deriving DecidableEq

/-! ## Image handling (lines 57-130) -/

def SOURCE_TMP : String := "/dev/source"

def TARGET_TMP : String := "/dev/target"

/-- `round_size(a)` (line 61).  The C operands are non-negative ints, so
`Nat` division coincides with the C `/`. -/
def round_size (a : Nat) : Nat := ((a / 32) + 2) * 32

/-- The names skipped both by the `merge_img` scan (lines 95-98) and by
the module enumeration (lines 584-587). -/
def ignored_entry (n : String) : Bool :=
  n == "." || n == ".." || n == ".core" || n == "lost+found"

/-- Everything `merge_img` queries about the two images and the two
temporary mounts. -/
structure ImgEnv where
  /-- `access(source, F_OK) == 0` -/
  src_exists : Bool
  /-- `access(target, F_OK) == 0` -/
  dst_exists : Bool
  /-- `get_img_size(source, ...)` -/
  s_used : Nat
  s_total : Nat
  /-- `get_img_size(target, ...)` -/
  t_used : Nat
  t_total : Nat
  /-- `mount_image(source, SOURCE_TMP) != NULL` -/
  src_mount_ok : Bool
  /-- `mount_image(target, TARGET_TMP) != NULL` -/
  dst_mount_ok : Bool
  /-- `opendir(SOURCE_TMP) != NULL` -/
  src_open_ok : Bool
  /-- the dirent list of `SOURCE_TMP` (name, `d_type`) -/
  src_entries : List (String × Nat)
  /-- `access(TARGET_TMP "/" name, F_OK) == 0` -/
  dst_has : String → Bool

/-- The upgrade scan (lines 93-109): for each `DT_DIR` entry of the
source image whose name is not ignored and which already exists in the
target, `rm_rf` the target copy. -/
def merge_scan (dst_has : String → Bool) : List (String × Nat) → List Act
  | [] => []
  | (n, t) :: rest =>
    if t == DT_DIR then
      if ignored_entry n then merge_scan dst_has rest
      else if dst_has n then
        Act.rm_rf [TARGET_TMP, n] :: merge_scan dst_has rest
      else merge_scan dst_has rest
    else merge_scan dst_has rest

/-- `merge_img(source, target)` (lines 65-122): the returned int and the
side effects performed, in order. -/
def merge_img (e : ImgEnv) (source target : String) : Nat × List Act :=
  if !e.src_exists then (0, [])
  else if !e.dst_exists then (0, [.rename source target])
  else
    -- lines 74-79: resize target to worst case
    let n_total := round_size (e.s_used + e.t_used)
    let a1 : List Act :=
      if n_total != e.t_total then [.resize target n_total] else []
    let a2 := a1 ++ [.mkdir [SOURCE_TMP], .mkdir [TARGET_TMP],
                     .mount_img source SOURCE_TMP]
    if !e.src_mount_ok then (1, a2)
    else
      let a3 := a2 ++ [.mount_img target TARGET_TMP]
      if !e.dst_mount_ok then (1, a3)
      else if !e.src_open_ok then (1, a3)
      else
        let a4 := a3 ++ merge_scan e.dst_has e.src_entries
        (0, a4 ++ [.clone_dir SOURCE_TMP TARGET_TMP,
                   .umount_img SOURCE_TMP, .umount_img TARGET_TMP,
                   .rmdir SOURCE_TMP, .rmdir TARGET_TMP, .unlink source])

/-- `trim_img` (lines 124-130). -/
def trim_img (used total : Nat) (img : String) : List Act :=
  if round_size used != total then [.resize img (round_size used)] else []

/-! ## Vendor hoist (lines 681-695) -/

/-- Scan `sys_root->children`; at the first child named `"vendor"`,
install a freshly `xcalloc`ed sentinel in the same slot — `type`
`DT_LNK` when vendor is a separate mount, else `DT_DIR`, status
`IS_VENDOR`, keeping the name (`child->name = ven_root->name`) and the
parent slot (`child->parent = ven_root->parent`) — and detach the old
node as `ven_root`, renamed `"/vendor"` with `parent = NULL` (here:
returned as a separate root). -/
def hoist_children (sep : Bool) : List Node → List Node × Option Node
  | [] => ([], none)
  | c :: rest =>
    if c.name == "vendor" then
      (Node.mk none c.name (if sep then DT_LNK else DT_DIR) IS_VENDOR [] :: rest,
       some (c.setName "/vendor"))
    else
      let r := hoist_children sep rest
      (c :: r.1, r.2)

def vendor_hoist (sep : Bool) (root : Node) : Node × Option Node :=
  let r := hoist_children sep root.children
  (root.setChildren r.1, r.2)

/-! ## Module enumeration (lines 582-630) and module scripts -/

/-- One dirent of `MOUNTPOINT` with the marker files the loop probes. -/
structure ModDesc where
  name : String
  dtype : Nat
  has_remove : Bool
  has_disable : Bool
  has_sysprop : Bool
  has_auto_mount : Bool
  has_system : Bool
  has_sys_vendor : Bool

/-- State threaded through the module loop: the `module_list`, the
modules that reach `construct_tree` (overlay contributors), and the side
effects. -/
def load_step (st : List String × List String × List Act) (m : ModDesc) :
    List String × List String × List Act :=
  if m.dtype != DT_DIR then st
  else if ignored_entry m.name then st
  else if m.has_remove then (st.1, st.2.1, st.2.2 ++ [.rm_rf ["MOUNTPOINT", m.name]])
  else if m.has_disable then st
  else
    -- line 601-602: added to module_list before any auto_mount/system check
    let ml := st.1 ++ [m.name]
    let ac := st.2.2 ++ (if m.has_sysprop then [.load_prop m.name] else [])
    if !m.has_auto_mount then (ml, st.2.1, ac)
    else if !m.has_system then (ml, st.2.1, ac)
    else
      (ml, st.2.1 ++ [m.name],
       ac ++ (if m.has_sys_vendor then [.symlink_vendor m.name] else []) ++
         [.construct m.name])

def load_modules (mods : List ModDesc) : List String × List String × List Act :=
  mods.foldl load_step ([], [], [])

/-- `exec_module_script(stage)` (lines 160-173): for each listed module,
run `<MOUNTPOINT>/<module>/<stage>.sh` when it exists. -/
def exec_module_script (stage : String) (has_script : String → Bool)
    (ml : List String) : List Act :=
  ml.foldl (fun ac md => if has_script md then ac ++ [.run_script md stage] else ac) []

/-! ## `post_fs_data` control flow up to the magic mount (lines 477-728) -/

structure PFDEnv where
  /-- `check_data()` -/
  data_ok : Bool
  /-- `access(UNINSTALLER, F_OK) == 0` -/
  uninstaller : Bool
  /-- `merge_img("/cache/magisk.img", MAINIMG) == 0` -/
  merge1_ok : Bool
  /-- `merge_img("/data/magisk_merge.img", MAINIMG) == 0` -/
  merge2_ok : Bool
  /-- `access(MAINIMG, F_OK) == 0` -/
  mainimg_exists : Bool
  /-- `create_img(MAINIMG, 64) == 0` -/
  create_ok : Bool
  /-- `mount_image(MAINIMG, MOUNTPOINT) != NULL` (line 546) -/
  mount1_ok : Bool
  /-- `access(DISABLEFILE, F_OK) == 0` -/
  disable : Bool
  /-- some module reached `construct_tree` -/
  has_modules : Bool
  /-- the remount `mount_image(MAINIMG, MOUNTPOINT)` of line 640
  succeeded.  Lines 639-641 assign the result and `free` it without any
  check, so the flow below never consults this field. -/
  remount_ok : Bool

inductive PFDResult where
  /-- `goto unblock` before the overlay work: `unblock_boot_process()`
  creates `UNBLOCKFILE` and exits the stage thread. -/
  | unblocked
  /-- uninstaller detach path (lines 501-505) -/
  | uninstall
  /-- `DISABLEFILE` present: skip straight to `core_only` -/
  | core_only
  /-- the overlay section ran to completion; the flag records whether
  `magic_mount` was reached (`has_modules`). -/
  | completed (magic_ran : Bool)
deriving DecidableEq

/-- The branch structure of `post_fs_data` between entry and the magic
mount, following the `goto unblock` edges (lines 487, 529, 533, 539,
547-548, 562-563).  After `trim_img` the image is remounted at line 640
with no failure check, so the result does not depend on `remount_ok`. -/
def post_fs_data_flow (e : PFDEnv) : PFDResult :=
  if !e.data_ok then .unblocked
  else if e.uninstaller then .uninstall
  else if !e.merge1_ok then .unblocked
  else if !e.merge2_ok then .unblocked
  else if !e.mainimg_exists && !e.create_ok then .unblocked
  else if !e.mount1_ok then .unblocked
  else if e.disable then .core_only
  else .completed e.has_modules

/-! ## `clone_skeleton` and `magic_mount` (lines 306-397) -/

/-- The dummy node of lines 320-323: `xcalloc`ed, mirror dirent name and
type, status `IS_DUMMY`. -/
def mk_dummy (d : String × Nat) : Node := .mk none d.1 d.2 IS_DUMMY []

/-- The structure-cloning loop of lines 316-325: insert one dummy per
mirror dirent (skipping `.`/`..`) into the node's children. -/
def insert_dummies : List Node → List (String × Nat) → List Node
  | cs, [] => cs
  | cs, d :: rest =>
    if d.1 == "." || d.1 == ".." then insert_dummies cs rest
    else insert_dummies (insert_child cs (mk_dummy d)).1 rest

theorem mem_insert_child {cs : List Node} {c x : Node}
    (h : x ∈ (insert_child cs c).1) : x ∈ cs ∨ x = c := by
  induction cs with
  | nil =>
    simp [insert_child] at h
    exact Or.inr h
  | cons e rest ih =>
    by_cases he : e.name == c.name
    · by_cases hs : e.status < c.status
      · simp [insert_child, he, hs] at h
        rcases h with h | h
        · exact Or.inr h
        · exact Or.inl (List.mem_cons_of_mem _ h)
      · simp [insert_child, he, hs] at h
        rcases h with h | h
        · exact Or.inl (h ▸ List.mem_cons_self e rest)
        · exact Or.inl (List.mem_cons_of_mem _ h)
    · simp [insert_child, he] at h
      rcases h with h | h
      · exact Or.inl (h ▸ List.mem_cons_self e rest)
      · rcases ih h with h' | h'
        · exact Or.inl (List.mem_cons_of_mem _ h')
        · exact Or.inr h'

theorem mem_insert_dummies {ds : List (String × Nat)} {cs : List Node} {x : Node}
    (h : x ∈ insert_dummies cs ds) : x ∈ cs ∨ x.status = IS_DUMMY := by
  induction ds generalizing cs with
  | nil =>
    simp [insert_dummies] at h
    exact Or.inl h
  | cons d rest ih =>
    by_cases hd : (d.1 == "." || d.1 == "..") = true
    · rw [insert_dummies, if_pos hd] at h
      exact ih h
    · rw [insert_dummies, if_neg hd] at h
      rcases ih h with h' | h'
      · rcases mem_insert_child h' with h'' | h''
        · exact Or.inl h''
        · right
          rw [h'']
          rfl
      · exact Or.inr h'

theorem sizeOf_lt_of_mem_children {c n : Node} (h : c ∈ n.children) :
    sizeOf c < sizeOf n := by
  cases n with
  | mk m nm t s cs =>
    simp only [Node.children] at h
    have := List.sizeOf_lt_of_mem h
    simp only [Node.mk.sizeOf_spec]
    omega

theorem children_sizeOf_lt (n : Node) : sizeOf n.children < sizeOf n := by
  cases n with
  | mk m nm t s cs =>
    simp only [Node.children, Node.mk.sizeOf_spec]
    omega

/-- Lines 338-342: create the in-skeleton placeholder for a child
(directory → `xmkdir`, regular file → `open_new`; links handled later). -/
def dummy_create (c : Node) (path : List String) : List Act :=
  if c.dtype == DT_DIR then [.mkdir ("DUMMDIR" :: (path ++ [c.name]))]
  else if c.dtype == DT_REG then [.touch ("DUMMDIR" :: (path ++ [c.name]))]
  else []

/-- Lines 363-370: a symlink child is copied (`cp_afc`) from the chosen
source into the skeleton; anything else is bind-mounted from the chosen
source onto the live path. -/
def mount_leaf (c : Node) (path : List String) (src : List String) : List Act :=
  if c.dtype == DT_LNK then [.cp_afc src ("DUMMDIR" :: (path ++ [c.name]))]
  else [.bind_mount src (path ++ [c.name])]

mutual

/-- `magic_mount(node)` (lines 377-397).  `path` is `full_path(node)`;
`buf2` is the current content of the global scratch buffer `buf2`, which
`clone_skeleton` both reads (stale, for status-0 children) and writes. -/
def magic_mount (env : Env) (path : List String) (node : Node)
    (buf2 : List String) : List Act × List String :=
  if node.status &&& IS_MODULE != 0 then
    ([.bind_mount ("MOUNTPOINT" :: node.module.getD "" :: path) path], buf2)
  else if node.status &&& IS_SKEL != 0 then
    clone_skeleton env path node buf2
  else if node.status &&& IS_INTER != 0 then
    magic_list env path node.children buf2
  else
    ([], buf2)
termination_by (sizeOf node, 2, 0)
decreasing_by
  all_goals first
    | (apply Prod.Lex.right; apply Prod.Lex.left; omega)
    | (apply Prod.Lex.left; exact children_sizeOf_lt node)

/-- The `vec_for_each` recursion of line 392-393. -/
def magic_list (env : Env) (path : List String) (cs : List Node)
    (buf2 : List String) : List Act × List String :=
  match cs with
  | [] => ([], buf2)
  | c :: rest =>
    let r1 := magic_mount env (path ++ [c.name]) c buf2
    let r2 := magic_list env path rest r1.2
    (r1.1 ++ r2.1, r2.2)
termination_by (sizeOf cs, 2, 0)
decreasing_by
  all_goals apply Prod.Lex.left
  all_goals simp
  all_goals omega

/-- `clone_skeleton(node)` (lines 306-375).  If the mirror directory
cannot be opened nothing happens; otherwise dummies are inserted for
every mirror entry, the skeleton directory is created with the live
directory's attributes, bind-mounted over the live path when the node
has `IS_SKEL`, and each child is materialised. -/
def clone_skeleton (env : Env) (path : List String) (node : Node)
    (buf2 : List String) : List Act × List String :=
  match env.mirrorDir path with
  | none => ([], buf2)
  | some ments =>
    let cs := insert_dummies node.children ments
    let pre : List Act :=
      [.mkdir_p ("DUMMDIR" :: path), .clone_attr path ("DUMMDIR" :: path)] ++
        (if node.status &&& IS_SKEL != 0 then
          [.bind_mount ("DUMMDIR" :: path) path]
         else [])
    let r := skel_loop env path node cs (fun _ hx => mem_insert_dummies hx) buf2
    (pre ++ r.1, r.2)
termination_by (sizeOf node, 1, 0)
decreasing_by
  apply Prod.Lex.right
  apply Prod.Lex.left
  omega

/-- The child loop of lines 334-371, threading the scratch buffer
`buf2`: the `IS_VENDOR` branch copies the mirror's `/system/vendor`
symlink; `IS_MODULE` and `IS_DUMMY` choose the module and mirror source
respectively; `IS_SKEL | IS_INTER` recurses; any other child (status 0)
falls through to line 363 with `buf2` unchanged — i.e. stale. -/
def skel_loop (env : Env) (path : List String) (node : Node) (cs : List Node)
    (hsub : ∀ x ∈ cs, x ∈ node.children ∨ x.status = IS_DUMMY)
    (buf2 : List String) : List Act × List String :=
  match cs with
  | [] => ([], buf2)
  | c :: rest =>
    let tail : ∀ x ∈ rest, x ∈ node.children ∨ x.status = IS_DUMMY :=
      fun x hx => hsub x (List.mem_cons_of_mem c hx)
    let create := dummy_create c path
    if c.status &&& IS_VENDOR != 0 then
      let va : List Act :=
        if c.dtype == DT_LNK then
          [.cp_afc ("MIRRDIR" :: ["/system", "vendor"]) ["/system", "vendor"]]
        else []
      let r := skel_loop env path node rest tail buf2
      (create ++ va ++ r.1, r.2)
    else if c.status &&& IS_MODULE != 0 then
      let src := "MOUNTPOINT" :: c.module.getD "" :: (path ++ [c.name])
      let r := skel_loop env path node rest tail src
      (create ++ mount_leaf c path src ++ r.1, r.2)
    else if h : (c.status &&& (IS_SKEL ||| IS_INTER) != 0) = true then
      let r1 := clone_skeleton env (path ++ [c.name]) c buf2
      let r := skel_loop env path node rest tail r1.2
      (create ++ r1.1 ++ r.1, r.2)
    else if c.status &&& IS_DUMMY != 0 then
      let src := "MIRRDIR" :: (path ++ [c.name])
      let r := skel_loop env path node rest tail src
      (create ++ mount_leaf c path src ++ r.1, r.2)
    else
      let r := skel_loop env path node rest tail buf2
      (create ++ mount_leaf c path buf2 ++ r.1, r.2)
termination_by (sizeOf node, 0, sizeOf cs)
decreasing_by
  all_goals first
    | (apply Prod.Lex.right; apply Prod.Lex.right; simp; try omega)
    | (apply Prod.Lex.left
       cases hsub c (List.mem_cons_self c rest) with
       | inl hc => exact sizeOf_lt_of_mem_children hc
       | inr hc =>
         rw [hc] at h
         simp [IS_DUMMY, IS_SKEL, IS_INTER] at h)

end

/-- The magic-mount phase of `post_fs_data` when `has_modules` is set
(lines 681-699): hoist the vendor subtree, magic-mount the `/system`
tree, then magic-mount the hoisted `/vendor` tree if one was extracted.
`sep` is `seperate_vendor` from the `/proc/mounts` scan. -/
def magic_stage (env : Env) (sep : Bool) (root : Node) (buf2 : List String) :
    List Act :=
  let h := vendor_hoist sep root
  let r1 := magic_mount env ["/system"] h.1 buf2
  match h.2 with
  | none => r1.1
  | some v => r1.1 ++ (magic_mount env ["/vendor"] v r1.2).1

/-! ## Simple mount (lines 403-434) -/

/-- `simple_mount(path)`: walk the staged tree `es` found under
`CACHEMOUNT ++ path`; for each entry whose live counterpart exists,
recurse into directories and, for regular files, clone the live file's
attributes onto the staged file and bind-mount the staged file over the
live one.  Entries with a missing live target are skipped. -/
def simple_mount (env : Env) (path : List String) (es : List FSEnt) : List Act :=
  match es with
  | [] => []
  | FSEnt.mk name dtype children :: rest =>
    if name == "." || name == ".." then simple_mount env path rest
    else if !env.liveExists (path ++ [name]) then simple_mount env path rest
    else if dtype == DT_DIR then
      simple_mount env (path ++ [name]) children ++ simple_mount env path rest
    else if dtype == DT_REG then
      Act.clone_attr (path ++ [name]) ("CACHEMOUNT" :: (path ++ [name])) ::
      Act.bind_mount ("CACHEMOUNT" :: (path ++ [name])) (path ++ [name]) ::
      simple_mount env path rest
    else simple_mount env path rest
termination_by sizeOf es
decreasing_by
  all_goals simp_wf
  all_goals omega

/-! ## Navigation helper and concrete scenarios -/

/-- Follow a component path through the tree (first name match, as
`insert_child` keeps names unique). -/
def node_at : Node → List String → Option Node
  | n, [] => some n
  | n, x :: xs =>
    match n.children.find? (fun c => c.name == x) with
    | some c => node_at c xs
    | none => none

/-- Scenario for C1: live `/system/etc` and `/system/etc/hosts` exist and
are not symlinks; no mirror is consulted. -/
def envAB : Env :=
  { liveExists := fun p =>
      decide (p = ["/system", "etc"] ∨ p = ["/system", "etc", "hosts"]),
    liveIsLnk := fun _ => false,
    mirrorDir := fun _ => none }

/-- Both modules ship `system/etc/hosts` as a regular file. -/
def fsHosts : List FSEnt := [FSEnt.mk "etc" DT_DIR [FSEnt.mk "hosts" DT_REG []]]

/-- Modules `A` then `B` (enumeration order) built into the system root. -/
def treeAB : Node := build_modules envAB [("A", fsHosts), ("B", fsHosts)] sysRoot0

/-- Scenario for C2: live `/system/etc` exists, `/system/etc/foo` does
not, so `etc` is skeletonised while the root stays `IS_INTER`. -/
def envC2 : Env :=
  { liveExists := fun p => decide (p = ["/system", "etc"]),
    liveIsLnk := fun _ => false,
    mirrorDir := fun _ => none }

def fsC2 : List FSEnt := [FSEnt.mk "etc" DT_DIR [FSEnt.mk "foo" DT_REG []]]

def treeC2 : Node := build_modules envC2 [("A", fsC2)] sysRoot0

/-- The `etc` node of `treeC2`. -/
def c2_etc : Node :=
  .mk (some "A") "etc" DT_DIR (IS_INTER ||| IS_SKEL)
    [.mk (some "A") "foo" DT_REG IS_MODULE []]

/-- Scenario for C5/C6: staging image 10 MiB used, main image 20 MiB
used of 32 total. -/
def c5_env : ImgEnv :=
  { src_exists := true, dst_exists := true, s_used := 10, s_total := 16,
    t_used := 20, t_total := 32, src_mount_ok := true, dst_mount_ok := true,
    src_open_ok := true, src_entries := [], dst_has := fun _ => false }

/-- `DT_FIFO` from `dirent.h`: an entry type that is neither a
directory, a regular file nor a symlink, which `construct_tree` leaves
with the `xcalloc` status 0 when it is not cloned. -/
def DT_FIFO : Nat := 1

/-- Scenario for C9's counterexample: live `/system/fifo` exists and is
not a symlink, so a module FIFO entry is not cloned and keeps status
0. -/
def envC9 : Env :=
  { liveExists := fun p => decide (p = ["/system", "fifo"]),
    liveIsLnk := fun _ => false,
    mirrorDir := fun _ => none }

def fsC9 : List FSEnt := [FSEnt.mk "fifo" DT_FIFO []]

def treeC9 : Node := build_modules envC9 [("A", fsC9)] sysRoot0

/-- Scenario for C7: everything succeeds except the remount of line 640. -/
def c7_env : PFDEnv :=
  { data_ok := true, uninstaller := false, merge1_ok := true, merge2_ok := true,
    mainimg_exists := true, create_ok := true, mount1_ok := true,
    disable := false, has_modules := true, remount_ok := false }

/-! ## Supporting lemmas -/

theorem insert_child_snd_mem (cs : List Node) (c : Node) :
    (insert_child cs c).2 ∈ (insert_child cs c).1 := by
  induction cs with
  | nil => simp [insert_child]
  | cons e rest ih =>
    by_cases he : (e.name == c.name) = true
    · by_cases hs : e.status < c.status
      · simp [insert_child, he, hs]
      · simp [insert_child, he, hs]
    · simp [insert_child, he]
      exact Or.inr ih

theorem mem_setChild {cs : List Node} {nm : String} {n x : Node}
    (h : x ∈ setChild cs nm n) : x ∈ cs ∨ x = n := by
  induction cs with
  | nil => simp [setChild] at h
  | cons e rest ih =>
    by_cases he : (e.name == nm) = true
    · simp [setChild, he] at h
      rcases h with h | h
      · exact Or.inr h
      · exact Or.inl (List.mem_cons_of_mem _ h)
    · simp [setChild, he] at h
      rcases h with h | h
      · exact Or.inl (h ▸ List.mem_cons_self e rest)
      · rcases ih h with h' | h'
        · exact Or.inl (List.mem_cons_of_mem _ h')
        · exact Or.inr h'

theorem entry_status_mem (c : Bool) (d : Nat) (r : Bool) :
    entry_status c d r = 0 ∨ entry_status c d r = IS_INTER ∨
      entry_status c d r = IS_MODULE := by
  unfold entry_status
  by_cases hc : c <;> by_cases hd : (d == DT_DIR) = true <;>
    by_cases hr : r <;> by_cases hg : (d == DT_REG) = true <;> simp [hc, hd, hr, hg]

theorem insert_child_cons_ne {a : Node} {t : List Node} {c : Node}
    (h : (a.name == c.name) ≠ true) :
    insert_child (a :: t) c =
      (a :: (insert_child t c).1, (insert_child t c).2) := by
  rw [insert_child, if_neg h]

/-- Inserting a fresh name appends at the back. -/
theorem insert_child_fresh {cs : List Node} {c : Node}
    (h : ∀ x ∈ cs, x.name ≠ c.name) :
    insert_child cs c = (cs ++ [c], c) := by
  induction cs with
  | nil => rfl
  | cons e rest ih =>
    have he : (e.name == c.name) ≠ true :=
      fun hx => h e (List.mem_cons_self e rest) (beq_iff_eq.mp hx)
    rw [insert_child_cons_ne he, ih (fun x hx => h x (List.mem_cons_of_mem _ hx))]
    rfl

theorem setChild_cons_ne {a : Node} {t : List Node} {nm : String} {n : Node}
    (h : (a.name == nm) ≠ true) :
    setChild (a :: t) nm n = a :: setChild t nm n := by
  rw [setChild, if_neg h]

theorem setChild_append_fresh {cs : List Node} {nm : String} {c n : Node}
    (h : ∀ x ∈ cs, x.name ≠ nm) (hc : c.name = nm) :
    setChild (cs ++ [c]) nm n = cs ++ [n] := by
  induction cs with
  | nil =>
    have hc' : (c.name == nm) = true := by simp [hc]
    show setChild (c :: []) nm n = [n]
    rw [setChild, if_pos hc']
  | cons e rest ih =>
    have he : (e.name == nm) ≠ true :=
      fun hx => h e (List.mem_cons_self e rest) (beq_iff_eq.mp hx)
    show setChild (e :: (rest ++ [c])) nm n = e :: (rest ++ [n])
    rw [setChild_cons_ne he, ih (fun x hx => h x (List.mem_cons_of_mem _ hx))]

/-! ## C1 -/

/-- C1 (corrected).  `insert_child` replaces an existing same-named
sibling only when the new node's status is strictly higher
(`c->status > e->status`, line 221), destroying the loser; on equal
status the existing node is kept and the new one destroyed, so when
modules A and B (enumerated in order A, B) both provide the same
regular file path, the surviving MODULE leaf carries `module == "A"`:
first-writer-wins on equal precedence. -/
theorem c1_insert_precedence :
    (∀ (l1 l2 : List Node) (e c : Node),
      (∀ x ∈ l1, x.name ≠ c.name) → e.name = c.name →
      ((e.status < c.status →
          insert_child (l1 ++ e :: l2) c = (l1 ++ c :: l2, c)) ∧
       (¬e.status < c.status →
          insert_child (l1 ++ e :: l2) c = (l1 ++ e :: l2, e)))) ∧
    (node_at treeAB ["etc", "hosts"]).map Node.module = some (some "A") := by
  constructor
  · intro l1 l2 e c h1 h2
    induction l1 with
    | nil =>
      have he : (e.name == c.name) = true := by simp [h2]
      constructor <;> intro hs
      · show insert_child (e :: l2) c = (c :: l2, c)
        rw [insert_child, if_pos he, if_pos hs]
      · show insert_child (e :: l2) c = (e :: l2, e)
        rw [insert_child, if_pos he, if_neg hs]
    | cons a rest ih =>
      have ha : (a.name == c.name) ≠ true :=
        fun hx => h1 a (List.mem_cons_self a rest) (beq_iff_eq.mp hx)
      have ih' := ih (fun x hx => h1 x (List.mem_cons_of_mem _ hx))
      constructor <;> intro hs
      · show insert_child (a :: (rest ++ e :: l2)) c = (a :: (rest ++ c :: l2), c)
        rw [insert_child_cons_ne ha, ih'.1 hs]
      · show insert_child (a :: (rest ++ e :: l2)) c = (a :: (rest ++ e :: l2), e)
        rw [insert_child_cons_ne ha, ih'.2 hs]
  · have ht : treeAB =
        Node.mk none "/system" 0 IS_INTER
          [Node.mk (some "A") "etc" DT_DIR IS_INTER
            [Node.mk (some "A") "hosts" DT_REG IS_MODULE []]] := by
      simp [treeAB, build_modules, construct_tree, clone_decision, entry_status,
        hasReplace, insert_child, setChild, sysRoot0, envAB, fsHosts,
        Node.setStatus, Node.setChildren, Node.children, Node.status, Node.name,
        FSEnt.name, FSEnt.dtype, FSEnt.children,
        DT_DIR, DT_REG, DT_LNK, IS_INTER, IS_SKEL, IS_MODULE]
    rw [ht]
    rfl

/-- Witness for C1: a concrete equal-status collision where the old
node (module "A") survives unchanged. -/
theorem c1_insert_precedence_witness :
    (∀ x ∈ ([] : List Node),
      x.name ≠ (Node.mk (some "B") "hosts" DT_REG IS_MODULE []).name) ∧
    (Node.mk (some "A") "hosts" DT_REG IS_MODULE []).name =
      (Node.mk (some "B") "hosts" DT_REG IS_MODULE []).name ∧
    ¬(Node.mk (some "A") "hosts" DT_REG IS_MODULE []).status <
      (Node.mk (some "B") "hosts" DT_REG IS_MODULE []).status ∧
    insert_child ([] ++ Node.mk (some "A") "hosts" DT_REG IS_MODULE [] :: [])
        (Node.mk (some "B") "hosts" DT_REG IS_MODULE []) =
      ([] ++ Node.mk (some "A") "hosts" DT_REG IS_MODULE [] :: [],
       Node.mk (some "A") "hosts" DT_REG IS_MODULE []) :=
  ⟨by simp, rfl, by decide,
    (c1_insert_precedence.1 [] [] (Node.mk (some "A") "hosts" DT_REG IS_MODULE [])
      (Node.mk (some "B") "hosts" DT_REG IS_MODULE []) (by simp) rfl).2 (by decide)⟩

/-- Counterexample for C1 as stated: with modules A and B both providing
the regular file `system/etc/hosts` (enumeration order A, B), the
surviving leaf's module is not "B". -/
theorem c1_counterexample :
    (node_at treeAB ["etc", "hosts"]).map Node.module ≠ some (some "B") := by
  have ht : treeAB =
      Node.mk none "/system" 0 IS_INTER
        [Node.mk (some "A") "etc" DT_DIR IS_INTER
          [Node.mk (some "A") "hosts" DT_REG IS_MODULE []]] := by
    simp [treeAB, build_modules, construct_tree, clone_decision, entry_status,
      hasReplace, insert_child, setChild, sysRoot0, envAB, fsHosts,
      Node.setStatus, Node.setChildren, Node.children, Node.status, Node.name,
      FSEnt.name, FSEnt.dtype, FSEnt.children,
      DT_DIR, DT_REG, DT_LNK, IS_INTER, IS_SKEL, IS_MODULE]
  intro hx
  rw [ht] at hx
  simp [node_at, Node.children, Node.name, Node.module] at hx

/-! ## C5 -/

/-- C5 (corrected).  When merging a 10-MiB-used source into a target
with 20 MiB used and 32 total, `merge_img` resizes the target to
`round_size(10 + 20) = ((30/32)+2)*32 = 64` units (C integer division),
not 96. -/
theorem c5_merge_resize (e : ImgEnv) (source target : String)
    (h1 : e.src_exists = true) (h2 : e.dst_exists = true)
    (h3 : e.s_used = 10) (h4 : e.t_used = 20) (h5 : e.t_total = 32) :
    round_size (e.s_used + e.t_used) = 64 ∧
    Act.resize target 64 ∈ (merge_img e source target).2 := by
  have hr : round_size (e.s_used + e.t_used) = 64 := by
    rw [h3, h4]
    decide
  refine ⟨hr, ?_⟩
  unfold merge_img
  rw [h1, h2]
  simp only [Bool.not_true, Bool.false_eq_true, if_false, hr, h5]
  by_cases m1 : e.src_mount_ok <;> by_cases m2 : e.dst_mount_ok <;>
    by_cases m3 : e.src_open_ok <;> simp [m1, m2, m3]

/-- Witness for C5 at the literal scenario image sizes. -/
theorem c5_merge_resize_witness :
    c5_env.src_exists = true ∧ c5_env.dst_exists = true ∧
    c5_env.s_used = 10 ∧ c5_env.t_used = 20 ∧ c5_env.t_total = 32 ∧
    (round_size (c5_env.s_used + c5_env.t_used) = 64 ∧
      Act.resize "/data/magisk.img" 64 ∈
        (merge_img c5_env "/cache/magisk.img" "/data/magisk.img").2) :=
  ⟨rfl, rfl, rfl, rfl, rfl,
    c5_merge_resize c5_env "/cache/magisk.img" "/data/magisk.img"
      rfl rfl rfl rfl rfl⟩

/-- Counterexample for C5 as stated: the resize value at the scenario
sizes is 64, and no resize to 96 happens. -/
theorem c5_counterexample :
    Act.resize "/data/magisk.img" 96 ∉
      (merge_img c5_env "/cache/magisk.img" "/data/magisk.img").2 ∧
    Act.resize "/data/magisk.img" 64 ∈
      (merge_img c5_env "/cache/magisk.img" "/data/magisk.img").2 := by
  decide

/-! ## C7 -/

/-- C7 (corrected).  The checked failures before the overlay work —
either image merge (lines 527-534), the creation of an absent `MAINIMG`
(lines 538-541), and the first `mount_image` of `MAINIMG` (line 546) —
make `post_fs_data` jump to `unblock` so that no overlay construction
or mounting proceeds; but the remount after trimming (line 640) is
performed without any check of its result, so the stage proceeds to the
magic mount regardless of `remount_ok`. -/
theorem c7_mount_failure_handling :
    (∀ e : PFDEnv, e.data_ok = true → e.uninstaller = false →
      e.merge1_ok = false → post_fs_data_flow e = .unblocked) ∧
    (∀ e : PFDEnv, e.data_ok = true → e.uninstaller = false →
      e.merge1_ok = true → e.merge2_ok = false →
      post_fs_data_flow e = .unblocked) ∧
    (∀ e : PFDEnv, e.data_ok = true → e.uninstaller = false →
      e.merge1_ok = true → e.merge2_ok = true →
      e.mainimg_exists = false → e.create_ok = false →
      post_fs_data_flow e = .unblocked) ∧
    (∀ e : PFDEnv, e.data_ok = true → e.uninstaller = false →
      e.merge1_ok = true → e.merge2_ok = true →
      (e.mainimg_exists = true ∨ e.create_ok = true) →
      e.mount1_ok = false → post_fs_data_flow e = .unblocked) ∧
    (∀ e : PFDEnv, e.data_ok = true → e.uninstaller = false →
      e.merge1_ok = true → e.merge2_ok = true →
      (e.mainimg_exists = true ∨ e.create_ok = true) →
      e.mount1_ok = true → e.disable = false →
      post_fs_data_flow e = .completed e.has_modules) := by
  refine ⟨?_, ?_, ?_, ?_, ?_⟩
  · intro e h1 h2 h3
    simp [post_fs_data_flow, h1, h2, h3]
  · intro e h1 h2 h3 h4
    simp [post_fs_data_flow, h1, h2, h3, h4]
  · intro e h1 h2 h3 h4 h5 h6
    simp [post_fs_data_flow, h1, h2, h3, h4, h5, h6]
  · intro e h1 h2 h3 h4 h5 h6
    rcases h5 with h5 | h5 <;>
      simp [post_fs_data_flow, h1, h2, h3, h4, h5, h6]
  · intro e h1 h2 h3 h4 h5 h6 h7
    rcases h5 with h5 | h5 <;>
      simp [post_fs_data_flow, h1, h2, h3, h4, h5, h6, h7]

/-- Witness for C7: with every step succeeding but the unchecked
remount failing, the stage still completes and runs the magic mount. -/
theorem c7_mount_failure_handling_witness :
    c7_env.data_ok = true ∧ c7_env.uninstaller = false ∧
    c7_env.merge1_ok = true ∧ c7_env.merge2_ok = true ∧
    (c7_env.mainimg_exists = true ∨ c7_env.create_ok = true) ∧
    c7_env.mount1_ok = true ∧ c7_env.disable = false ∧
    post_fs_data_flow c7_env = .completed c7_env.has_modules :=
  ⟨rfl, rfl, rfl, rfl, Or.inl rfl, rfl, rfl,
    c7_mount_failure_handling.2.2.2.2 c7_env rfl rfl rfl rfl (Or.inl rfl) rfl rfl⟩

/-- Counterexample for C7 as stated: the remount of `MAINIMG` after
trimming fails (`remount_ok = false`) yet the stage is not aborted: the
flow completes and the magic mount runs. -/
theorem c7_counterexample :
    c7_env.remount_ok = false ∧
    post_fs_data_flow c7_env = .completed true ∧
    post_fs_data_flow c7_env ≠ .unblocked := by
  decide

/-! ## C6 -/

theorem merge_scan_mem {dh : String → Bool} {es : List (String × Nat)} {a : Act}
    (h : a ∈ merge_scan dh es) :
    ∃ m, a = Act.rm_rf [TARGET_TMP, m] ∧ ignored_entry m = false ∧ dh m = true := by
  induction es with
  | nil => simp [merge_scan] at h
  | cons e rest ih =>
    rcases e with ⟨n, t⟩
    by_cases ht : (t == DT_DIR) = true
    · by_cases hi : ignored_entry n = true
      · rw [merge_scan, if_pos ht, if_pos hi] at h
        exact ih h
      · by_cases hh : dh n = true
        · rw [merge_scan, if_pos ht, if_neg (by simp [hi]), if_pos hh] at h
          rcases List.mem_cons.mp h with h' | h'
          · exact ⟨n, h', by simpa using hi, hh⟩
          · exact ih h'
        · rw [merge_scan, if_pos ht, if_neg (by simp [hi]), if_neg hh] at h
          exact ih h
    · rw [merge_scan, if_neg ht] at h
      exact ih h

/-- C6 (confirmed).  `merge_img` returns success with no side effect
when the source image is absent; renames the source onto an absent
target; and on the fully successful path resizes as needed, mounts
both images, removes the target copies of non-ignored source module
directories, clones the source into the target, unmounts both
temporary mounts and deletes the source.  The upgrade scan never
touches the entries `.`, `..`, `.core`, `lost+found`. -/
theorem c6_merge_img (e : ImgEnv) (source target : String) :
    (e.src_exists = false → merge_img e source target = (0, [])) ∧
    (e.src_exists = true → e.dst_exists = false →
      merge_img e source target = (0, [.rename source target])) ∧
    (e.src_exists = true → e.dst_exists = true → e.src_mount_ok = true →
      e.dst_mount_ok = true → e.src_open_ok = true →
      merge_img e source target =
        (0, (if round_size (e.s_used + e.t_used) != e.t_total then
               [Act.resize target (round_size (e.s_used + e.t_used))] else []) ++
            [Act.mkdir [SOURCE_TMP], Act.mkdir [TARGET_TMP],
             Act.mount_img source SOURCE_TMP, Act.mount_img target TARGET_TMP] ++
            merge_scan e.dst_has e.src_entries ++
            [Act.clone_dir SOURCE_TMP TARGET_TMP, Act.umount_img SOURCE_TMP,
             Act.umount_img TARGET_TMP, Act.rmdir SOURCE_TMP, Act.rmdir TARGET_TMP,
             Act.unlink source])) ∧
    (∀ n, ignored_entry n = true →
      Act.rm_rf [TARGET_TMP, n] ∉ merge_scan e.dst_has e.src_entries) := by
  refine ⟨?_, ?_, ?_, ?_⟩
  · intro h1
    simp [merge_img, h1]
  · intro h1 h2
    simp [merge_img, h1, h2]
  · intro h1 h2 h3 h4 h5
    simp [merge_img, h1, h2, h3, h4, h5]
  · intro n hn hmem
    rcases merge_scan_mem hmem with ⟨m, hm, hig, _⟩
    have hmn : m = n := by
      have := hm
      simp only [Act.rm_rf.injEq, List.cons.injEq, true_and, and_true,
        eq_self_iff_true] at this
      exact this.symm
    rw [hmn] at hig
    rw [hn] at hig
    cases hig

/-- Witness for C6 at the concrete scenario image. -/
theorem c6_merge_img_witness :
    c5_env.src_exists = true ∧ c5_env.dst_exists = true ∧
    c5_env.src_mount_ok = true ∧ c5_env.dst_mount_ok = true ∧
    c5_env.src_open_ok = true ∧
    merge_img c5_env "/cache/magisk.img" "/data/magisk.img" =
      (0, [Act.resize "/data/magisk.img" 64, Act.mkdir [SOURCE_TMP],
           Act.mkdir [TARGET_TMP], Act.mount_img "/cache/magisk.img" SOURCE_TMP,
           Act.mount_img "/data/magisk.img" TARGET_TMP,
           Act.clone_dir SOURCE_TMP TARGET_TMP, Act.umount_img SOURCE_TMP,
           Act.umount_img TARGET_TMP, Act.rmdir SOURCE_TMP, Act.rmdir TARGET_TMP,
           Act.unlink "/cache/magisk.img"]) :=
  ⟨rfl, rfl, rfl, rfl, rfl, by
    have h := (c6_merge_img c5_env "/cache/magisk.img" "/data/magisk.img").2.2.1
      rfl rfl rfl rfl rfl
    simpa [merge_scan, c5_env] using h⟩

/-! ## C9 -/

theorem insert_child_keep {cs : List Node} {c : Node}
    (hlow : ∀ e ∈ cs, ¬e.status < c.status)
    (hname : ∃ e ∈ cs, e.name = c.name) :
    (insert_child cs c).1 = cs := by
  induction cs with
  | nil => simp at hname
  | cons e rest ih =>
    by_cases he : (e.name == c.name) = true
    · have hs : ¬e.status < c.status := hlow e (List.mem_cons_self e rest)
      show (if e.name == c.name then
          if e.status < c.status then (c :: rest, c) else (e :: rest, e)
        else ((e :: (insert_child rest c).1), (insert_child rest c).2)).1 = e :: rest
      rw [if_pos he, if_neg hs]
    · rcases hname with ⟨x, hx, hxn⟩
      rcases List.mem_cons.mp hx with rfl | hx'
      · exact absurd (by simp [hxn]) he
      · rw [insert_child_cons_ne he,
          ih (fun y hy => hlow y (List.mem_cons_of_mem _ hy)) ⟨x, hx', hxn⟩]

theorem insert_dummies_invariant (cs0 : List Node)
    (h0 : ∀ e ∈ cs0, e.status &&& (IS_MODULE ||| IS_SKEL ||| IS_INTER) ≠ 0) :
    ∀ (ds : List (String × Nat)) (cs : List Node),
      (∀ e ∈ cs0, e ∈ cs) →
      (∀ x ∈ cs, x ∈ cs0 ∨ x.status = IS_DUMMY) →
      (∀ x ∈ cs, x.status = IS_DUMMY → ∀ e ∈ cs0, e.name ≠ x.name) →
      (∀ e ∈ cs0, e ∈ insert_dummies cs ds) ∧
      (∀ x ∈ insert_dummies cs ds, x.status = IS_DUMMY →
        ∀ e ∈ cs0, e.name ≠ x.name) := by
  intro ds
  induction ds with
  | nil =>
    intro cs h1 h2 h3
    exact ⟨fun e he => h1 e he, fun x hx => h3 x hx⟩
  | cons d rest ih =>
    intro cs h1 h2 h3
    have hstep :
        ∀ cs', cs' = (insert_child cs (mk_dummy d)).1 →
          (∀ e ∈ cs0, e ∈ cs') ∧ (∀ x ∈ cs', x ∈ cs0 ∨ x.status = IS_DUMMY) ∧
          (∀ x ∈ cs', x.status = IS_DUMMY → ∀ e ∈ cs0, e.name ≠ x.name) := by
      intro cs' hcs'
      by_cases hex : ∃ e ∈ cs, e.name = (mk_dummy d).name
      · have hkeep : (insert_child cs (mk_dummy d)).1 = cs := by
          apply insert_child_keep ?_ hex
          intro x hx
          rcases h2 x hx with hx0 | hx1
          · have := h0 x hx0
            show ¬x.status < IS_DUMMY
            intro hlt
            have hz : x.status = 0 := by
              simp [IS_DUMMY] at hlt
              exact hlt
            rw [hz] at this
            exact this rfl
          · show ¬x.status < IS_DUMMY
            rw [hx1]
            omega
        rw [hcs', hkeep]
        exact ⟨h1, h2, h3⟩
      · push_neg at hex
        have happ : (insert_child cs (mk_dummy d)).1 = cs ++ [mk_dummy d] := by
          rw [insert_child_fresh (fun x hx => hex x hx)]
        rw [hcs', happ]
        refine ⟨fun e he => List.mem_append_left _ (h1 e he), ?_, ?_⟩
        · intro x hx
          rcases List.mem_append.mp hx with hx' | hx'
          · exact h2 x hx'
          · right
            rw [List.mem_singleton.mp hx']
            rfl
        · intro x hx hxd e he
          rcases List.mem_append.mp hx with hx' | hx'
          · exact h3 x hx' hxd e he
          · rw [List.mem_singleton.mp hx']
            intro heq
            exact hex e (h1 e he) heq
    by_cases hd : (d.1 == "." || d.1 == "..") = true
    · rw [insert_dummies, if_pos hd]
      exact ih cs h1 h2 h3
    · rw [insert_dummies, if_neg hd]
      have hs := hstep _ rfl
      exact ih _ hs.1 hs.2.1 hs.2.2

/-- C9 (corrected).  During `clone_skeleton`'s structure-cloning loop,
a `DUMMY` node never displaces an existing child whose status contains
`MODULE`, `SKEL` or `INTER`: `IS_DUMMY` is strictly below those, so
`insert_child` keeps the existing node (and frees the new dummy)
whenever such a same-named child is present; every `MODULE`, `SKEL` or
`INTER` child survives with status and module attribution intact, and
the children ending up with status `DUMMY` bear names held by no such
child.  The restriction is necessary: a child with the `xcalloc`
status 0 (exotic dirent type, live path present and not a symlink) is
displaced by a same-named dummy, as `c9_counterexample` shows. -/
theorem c9_dummy_no_displace (cs : List Node) (ds : List (String × Nat))
    (h : ∀ e ∈ cs, e.status &&& (IS_MODULE ||| IS_SKEL ||| IS_INTER) ≠ 0) :
    (∀ d : String × Nat, (∃ e ∈ cs, e.name = d.1) →
      (insert_child cs (mk_dummy d)).1 = cs) ∧
    (∀ e ∈ cs, e ∈ insert_dummies cs ds) ∧
    (∀ x ∈ insert_dummies cs ds, x.status = IS_DUMMY →
      ∀ e ∈ cs, e.name ≠ x.name) := by
  have hinv := insert_dummies_invariant cs h ds cs (fun e he => he)
    (fun x hx => Or.inl hx)
    (fun x hx hxd e _ => by
      have := h x hx
      rw [hxd] at this
      exact absurd rfl this)
  refine ⟨?_, hinv.1, hinv.2⟩
  intro d hex
  apply insert_child_keep ?_ hex
  intro x hx
  have := h x hx
  show ¬x.status < IS_DUMMY
  intro hlt
  have hz : x.status = 0 := by
    simp [IS_DUMMY] at hlt
    exact hlt
  rw [hz] at this
  exact this rfl

/-- Witness for C9: one MODULE child named `app`, mirror entries `app`
and `fonts`; the module child survives and only `fonts` becomes a
dummy. -/
theorem c9_dummy_no_displace_witness :
    (∀ e ∈ [Node.mk (some "A") "app" DT_DIR IS_MODULE []],
      e.status &&& (IS_MODULE ||| IS_SKEL ||| IS_INTER) ≠ 0) ∧
    (insert_child [Node.mk (some "A") "app" DT_DIR IS_MODULE []]
        (mk_dummy ("app", DT_DIR))).1 =
      [Node.mk (some "A") "app" DT_DIR IS_MODULE []] ∧
    Node.mk (some "A") "app" DT_DIR IS_MODULE [] ∈
      insert_dummies [Node.mk (some "A") "app" DT_DIR IS_MODULE []]
        [("app", DT_DIR), ("fonts", DT_DIR)] := by
  have hh : ∀ e ∈ [Node.mk (some "A") "app" DT_DIR IS_MODULE []],
      e.status &&& (IS_MODULE ||| IS_SKEL ||| IS_INTER) ≠ 0 := by decide
  have h := c9_dummy_no_displace [Node.mk (some "A") "app" DT_DIR IS_MODULE []]
    [("app", DT_DIR), ("fonts", DT_DIR)] hh
  exact ⟨hh, h.1 ("app", DT_DIR) ⟨_, List.mem_singleton.mpr rfl, rfl⟩,
    h.2.1 _ (List.mem_singleton.mpr rfl)⟩

/-! ## C10 -/

theorem load_step_ml (st : List String × List String × List Act) (m : ModDesc) :
    (load_step st m).1 = st.1 ∨ (load_step st m).1 = st.1 ++ [m.name] := by
  unfold load_step
  repeat' split
  all_goals simp

theorem load_step_ct (st : List String × List String × List Act) (m : ModDesc) :
    (load_step st m).2.1 = st.2.1 ∨
      ((load_step st m).2.1 = st.2.1 ++ [m.name] ∧
        m.has_auto_mount = true ∧ m.has_system = true) := by
  unfold load_step
  repeat' split
  all_goals simp_all

theorem load_step_ac (st : List String × List String × List Act) (m : ModDesc) :
    ∃ k, (load_step st m).2.2 = st.2.2 ++ k := by
  unfold load_step
  repeat' split
  all_goals try dsimp only
  all_goals first
    | exact ⟨[], (List.append_nil _).symm⟩
    | exact ⟨_, rfl⟩
    | exact ⟨_, by rw [List.append_assoc, List.append_assoc]⟩
    | exact ⟨_, by rw [List.append_assoc]⟩

theorem load_fold_ml_mem (mods : List ModDesc) :
    ∀ st : List String × List String × List Act,
      ∀ x ∈ st.1, x ∈ (mods.foldl load_step st).1 := by
  induction mods with
  | nil =>
    intro st x hx
    simpa using hx
  | cons m rest ih =>
    intro st x hx
    rw [List.foldl_cons]
    apply ih
    rcases load_step_ml st m with h | h <;> rw [h]
    · exact hx
    · exact List.mem_append_left _ hx

theorem load_fold_ac_mem (mods : List ModDesc) :
    ∀ st : List String × List String × List Act,
      ∀ a ∈ st.2.2, a ∈ (mods.foldl load_step st).2.2 := by
  induction mods with
  | nil =>
    intro st a ha
    simpa using ha
  | cons m rest ih =>
    intro st a ha
    rw [List.foldl_cons]
    apply ih
    rcases load_step_ac st m with ⟨k, hk⟩
    rw [hk]
    exact List.mem_append_left _ ha

theorem load_fold_ct_not_mem (mods : List ModDesc) (nm : String)
    (hmods : ∀ m' ∈ mods, m'.name = nm →
      (m'.has_auto_mount = false ∨ m'.has_system = false)) :
    ∀ st : List String × List String × List Act,
      nm ∉ st.2.1 → nm ∉ (mods.foldl load_step st).2.1 := by
  induction mods with
  | nil =>
    intro st h
    simpa using h
  | cons m rest ih =>
    intro st h
    rw [List.foldl_cons]
    apply ih (fun m' hm' => hmods m' (List.mem_cons_of_mem _ hm'))
    rcases load_step_ct st m with hc | hc
    · rw [hc]
      exact h
    · rw [hc.1]
      intro hmem
      rcases List.mem_append.mp hmem with h' | h'
      · exact h h'
      · have hnm : m.name = nm := (List.mem_singleton.mp h').symm
        rcases hmods m (List.mem_cons_self m rest) hnm with hf | hf
        · rw [hc.2.1] at hf
          cases hf
        · rw [hc.2.2] at hf
          cases hf

theorem exec_fold_mono (stage : String) (hs : String → Bool) (ml : List String) :
    ∀ (ac : List Act) (a : Act), a ∈ ac →
      a ∈ ml.foldl
        (fun ac md => if hs md then ac ++ [Act.run_script md stage] else ac) ac := by
  induction ml with
  | nil =>
    intro ac a ha
    simpa using ha
  | cons n rest ih =>
    intro ac a ha
    rw [List.foldl_cons]
    apply ih
    by_cases hn : hs n = true <;> simp [hn, ha]

theorem exec_fold_mem (stage : String) (hs : String → Bool) :
    ∀ (ml : List String) (ac : List Act) (n : String), n ∈ ml → hs n = true →
      Act.run_script n stage ∈
        ml.foldl
          (fun ac md => if hs md then ac ++ [Act.run_script md stage] else ac) ac := by
  intro ml
  induction ml with
  | nil =>
    intro ac n hn
    simp at hn
  | cons x rest ih =>
    intro ac n hn hsn
    rw [List.foldl_cons]
    rcases List.mem_cons.mp hn with rfl | hn'
    · apply exec_fold_mono
      simp [hsn]
    · exact ih _ n hn' hsn

/-- C10 (confirmed).  A `MOUNTPOINT` directory entry carrying neither a
`remove` nor a `disable` marker is appended to `module_list` (and its
`system.prop` handed to the property loader) before `auto_mount` and the
`system/` subdirectory are checked, so a module lacking either never
reaches `construct_tree` (contributes nothing to the overlay) yet still
has its existing per-module stage script run by
`exec_module_script`. -/
theorem c10_module_scripts (mods : List ModDesc) (m : ModDesc) (stage : String)
    (has_script : String → Bool)
    (hm : m ∈ mods) (hdir : m.dtype = DT_DIR) (hig : ignored_entry m.name = false)
    (hrm : m.has_remove = false) (hdis : m.has_disable = false) :
    m.name ∈ (load_modules mods).1 ∧
    (m.has_sysprop = true → Act.load_prop m.name ∈ (load_modules mods).2.2) ∧
    ((m.has_auto_mount = false ∨ m.has_system = false) →
      (∀ m' ∈ mods, m'.name = m.name → m' = m) →
      m.name ∉ (load_modules mods).2.1) ∧
    (∀ n ∈ (load_modules mods).1, has_script n = true →
      Act.run_script n stage ∈
        exec_module_script stage has_script (load_modules mods).1) := by
  have hstep : ∀ st : List String × List String × List Act,
      m.name ∈ (load_step st m).1 ∨ m.name ∈ st.1 := by
    intro st
    have hd : (m.dtype != DT_DIR) = false := by simp [hdir]
    unfold load_step
    rw [hd]
    simp only [Bool.false_eq_true, if_false, hig, hrm, hdis]
    repeat' split
    all_goals simp
  have hmain : ∀ (l : List ModDesc) st, m ∈ l →
      m.name ∈ (l.foldl load_step st).1 ∧
      (m.has_sysprop = true →
        Act.load_prop m.name ∈ (l.foldl load_step st).2.2) := by
    intro l
    induction l with
    | nil =>
      intro st hm'
      simp at hm'
    | cons x rest ih =>
      intro st hm'
      rcases List.mem_cons.mp hm' with rfl | hm''
      · constructor
        · rw [List.foldl_cons]
          apply load_fold_ml_mem
          have hd : (m.dtype != DT_DIR) = false := by simp [hdir]
          unfold load_step
          rw [hd]
          simp only [Bool.false_eq_true, if_false, hig, hrm, hdis]
          repeat' split
          all_goals simp
        · intro hsp
          rw [List.foldl_cons]
          apply load_fold_ac_mem
          have hd : (m.dtype != DT_DIR) = false := by simp [hdir]
          unfold load_step
          rw [hd]
          simp only [Bool.false_eq_true, if_false, hig, hrm, hdis, hsp]
          repeat' split
          all_goals simp_all
      · rw [List.foldl_cons]
        exact ih _ hm''
  have h1 := (hmain mods ([], [], []) hm).1
  have h2 := (hmain mods ([], [], []) hm).2
  refine ⟨h1, h2, ?_, ?_⟩
  · intro hlack huniq
    have : ∀ m' ∈ mods, m'.name = m.name →
        (m'.has_auto_mount = false ∨ m'.has_system = false) := by
      intro m' hm' hnm
      rw [huniq m' hm' hnm]
      exact hlack
    exact load_fold_ct_not_mem mods m.name this ([], [], []) (by simp)
  · intro n hn hsn
    exact exec_fold_mem stage has_script (load_modules mods).1 [] n hn hsn

/-- Witness for C10: one active module with no `auto_mount`. -/
theorem c10_module_scripts_witness :
    (ModDesc.mk "busybox" DT_DIR false false true false true false ∈
      [ModDesc.mk "busybox" DT_DIR false false true false true false]) ∧
    (ModDesc.mk "busybox" DT_DIR false false true false true false).dtype = DT_DIR ∧
    ignored_entry "busybox" = false ∧
    "busybox" ∈
      (load_modules [ModDesc.mk "busybox" DT_DIR false false true false true false]).1 ∧
    "busybox" ∉
      (load_modules [ModDesc.mk "busybox" DT_DIR false false true false true false]).2.1 ∧
    Act.run_script "busybox" "post-fs-data" ∈
      exec_module_script "post-fs-data" (fun _ => true)
        (load_modules [ModDesc.mk "busybox" DT_DIR false false true false true false]).1 := by
  have h := c10_module_scripts
    [ModDesc.mk "busybox" DT_DIR false false true false true false]
    (ModDesc.mk "busybox" DT_DIR false false true false true false)
    "post-fs-data" (fun _ => true)
    (List.mem_singleton.mpr rfl) rfl rfl rfl rfl
  exact ⟨List.mem_singleton.mpr rfl, rfl, rfl, h.1,
    h.2.2.1 (Or.inl rfl) (fun m' hm' _ => List.mem_singleton.mp hm'),
    h.2.2.2 "busybox" h.1 rfl⟩

/-! ## C3 -/

theorem Node.setStatus_children (n : Node) (s : Nat) :
    (n.setStatus s).children = n.children := by
  cases n
  rfl

theorem Node.setStatus_status (n : Node) (s : Nat) : (n.setStatus s).status = s := by
  cases n
  rfl

theorem Node.setChildren_status (n : Node) (cs : List Node) :
    (n.setChildren cs).status = n.status := by
  cases n
  rfl

theorem Node.setChildren_children (n : Node) (cs : List Node) :
    (n.setChildren cs).children = cs := by
  cases n
  rfl

/-- Processing a single fresh-named module dirent. -/
theorem construct_tree_singleton (env : Env) (md pn : String) (pp : List String)
    (name : String) (dtype : Nat) (children : List FSEnt) (parent : Node)
    (hname : (name == "." || name == "..") = false)
    (hfresh : ∀ x ∈ parent.children, x.name ≠ name) :
    construct_tree env md pn pp [FSEnt.mk name dtype children] parent =
      (if clone_decision env pn pp name dtype then
        parent.setStatus (parent.status ||| IS_SKEL) else parent).setChildren
        (parent.children ++
          [if (entry_status (clone_decision env pn pp name dtype) dtype
                (hasReplace children) &&& (IS_SKEL ||| IS_INTER) != 0) &&
              (dtype == DT_DIR) then
            construct_tree env md name (pp ++ [name]) children
              (Node.mk (some md) name dtype
                (entry_status (clone_decision env pn pp name dtype) dtype
                  (hasReplace children)) [])
          else
            Node.mk (some md) name dtype
              (entry_status (clone_decision env pn pp name dtype) dtype
                (hasReplace children)) []]) := by
  have hfresh1 :
      ∀ x ∈ (if clone_decision env pn pp name dtype then
          parent.setStatus (parent.status ||| IS_SKEL) else parent).children,
        x.name ≠ (Node.mk (some md) name dtype
          (entry_status (clone_decision env pn pp name dtype) dtype
            (hasReplace children)) []).name := by
    intro x hx
    by_cases hc : clone_decision env pn pp name dtype = true
    · rw [if_pos hc, Node.setStatus_children] at hx
      exact hfresh x hx
    · rw [if_neg hc] at hx
      exact hfresh x hx
  rw [construct_tree]
  rw [if_neg (by rw [hname]; exact Bool.false_ne_true)]
  simp only [insert_child_fresh hfresh1]
  rw [construct_tree]
  have hchildren :
      (if clone_decision env pn pp name dtype then
        parent.setStatus (parent.status ||| IS_SKEL) else parent).children =
      parent.children := by
    by_cases hc : clone_decision env pn pp name dtype = true
    · rw [if_pos hc, Node.setStatus_children]
    · rw [if_neg hc]
  rw [hchildren]
  rw [@setChild_append_fresh parent.children name
    (Node.mk (some md) name dtype
      (entry_status (clone_decision env pn pp name dtype) dtype
        (hasReplace children)) []) _ hfresh rfl]
  rfl

/-- C3 (confirmed).  For a module dirent processed by `construct_tree`:
the clone decision (node `MODULE`, `SKEL` OR-ed into the parent) fires
exactly when the module entry is a symlink, or the live path does not
exist, or the live path is a symlink and we are not at the special case
`parent->name == "/system" && name == "vendor"`; a non-cloned directory
with a `.replace` marker becomes `MODULE`, without one `INTER`, a
regular file `MODULE`; and the nested `construct_tree` call happens
only when the inserted child's resulting status has `SKEL | INTER`. -/
theorem c3_construct_entry (env : Env) (md pn : String) (pp : List String)
    (name : String) (dtype : Nat) (children : List FSEnt) (parent : Node)
    (hname : (name == "." || name == "..") = false)
    (hfresh : ∀ x ∈ parent.children, x.name ≠ name) :
    (clone_decision env pn pp name dtype = true ↔
      (dtype = DT_LNK ∨ env.liveExists (pp ++ [name]) = false ∨
        (env.liveIsLnk (pp ++ [name]) = true ∧ ¬(pn = "/system" ∧ name = "vendor")))) ∧
    ((construct_tree env md pn pp [FSEnt.mk name dtype children] parent).status =
      if clone_decision env pn pp name dtype then parent.status ||| IS_SKEL
      else parent.status) ∧
    (clone_decision env pn pp name dtype = true →
      entry_status (clone_decision env pn pp name dtype) dtype (hasReplace children) =
        IS_MODULE) ∧
    (clone_decision env pn pp name dtype = false → dtype = DT_DIR →
      entry_status (clone_decision env pn pp name dtype) dtype (hasReplace children) =
        if hasReplace children then IS_MODULE else IS_INTER) ∧
    (clone_decision env pn pp name dtype = false → dtype = DT_REG →
      entry_status (clone_decision env pn pp name dtype) dtype (hasReplace children) =
        IS_MODULE) ∧
    ((construct_tree env md pn pp [FSEnt.mk name dtype children] parent).children =
      parent.children ++
        [if (entry_status (clone_decision env pn pp name dtype) dtype
              (hasReplace children) &&& (IS_SKEL ||| IS_INTER) != 0) &&
            (dtype == DT_DIR) then
          construct_tree env md name (pp ++ [name]) children
            (Node.mk (some md) name dtype
              (entry_status (clone_decision env pn pp name dtype) dtype
                (hasReplace children)) [])
        else
          Node.mk (some md) name dtype
            (entry_status (clone_decision env pn pp name dtype) dtype
              (hasReplace children)) []]) := by
  have hs := construct_tree_singleton env md pn pp name dtype children parent hname hfresh
  refine ⟨?_, ?_, ?_, ?_, ?_, ?_⟩
  · unfold clone_decision
    by_cases hl : (dtype == DT_LNK) = true <;>
      by_cases he : env.liveExists (pp ++ [name]) = true <;>
        by_cases hv : (pn == "/system" && name == "vendor") = true <;>
          by_cases hk : env.liveIsLnk (pp ++ [name]) = true <;>
            simp_all <;> tauto
  · rw [hs, Node.setChildren_status]
    by_cases hc : clone_decision env pn pp name dtype = true
    · rw [if_pos hc, if_pos hc, Node.setStatus_status]
    · rw [if_neg hc, if_neg hc]
  · intro hc
    rw [entry_status, if_pos hc]
  · intro hc hd
    rw [entry_status, if_neg (by rw [hc]; exact Bool.false_ne_true),
      if_pos (by simp [hd])]
  · intro hc hd
    rw [entry_status, if_neg (by rw [hc]; exact Bool.false_ne_true),
      if_neg (by simp [hd]; decide), if_pos (by simp [hd])]
  · rw [hs, Node.setChildren_children]

/-- Witness for C3: module entry `etc` (a directory containing `foo`),
live `/system/etc` present and not a symlink. -/
theorem c3_construct_entry_witness :
    ((("etc" : String) == "." || ("etc" : String) == "..") = false) ∧
    (∀ x ∈ sysRoot0.children, x.name ≠ "etc") ∧
    (clone_decision envC2 "/system" ["/system"] "etc" DT_DIR = true ↔
      (DT_DIR = DT_LNK ∨ envC2.liveExists ["/system", "etc"] = false ∨
        (envC2.liveIsLnk ["/system", "etc"] = true ∧
          ¬("/system" = "/system" ∧ "etc" = "vendor")))) := by
  have h := c3_construct_entry envC2 "A" "/system" ["/system"] "etc" DT_DIR
    [FSEnt.mk "foo" DT_REG []] sysRoot0 rfl (by simp [sysRoot0, Node.children])
  refine ⟨rfl, by simp [sysRoot0, Node.children], ?_⟩
  have h1 := h.1
  simpa using h1

/-! ## C4 -/

theorem hoist_children_spec (sep : Bool) (l1 l2 : List Node) (v : Node)
    (hv : v.name = "vendor") (hl1 : ∀ x ∈ l1, x.name ≠ "vendor") :
    hoist_children sep (l1 ++ v :: l2) =
      (l1 ++ Node.mk none "vendor" (if sep then DT_LNK else DT_DIR) IS_VENDOR []
        :: l2,
       some (v.setName "/vendor")) := by
  induction l1 with
  | nil =>
    have hv' : (v.name == "vendor") = true := by simp [hv]
    show hoist_children sep (v :: l2) = _
    rw [hoist_children, if_pos hv', hv]
    rfl
  | cons a rest ih =>
    have ha : (a.name == "vendor") ≠ true :=
      fun hx => hl1 a (List.mem_cons_self a rest) (beq_iff_eq.mp hx)
    show hoist_children sep (a :: (rest ++ v :: l2)) = _
    rw [hoist_children, if_neg ha,
      ih (fun x hx => hl1 x (List.mem_cons_of_mem _ hx))]
    rfl

/-- C4 (confirmed).  With a `"vendor"` child present under the system
root, the hoist replaces that child slot with a freshly allocated
sentinel — status `IS_VENDOR`, type `DT_LNK` when vendor is a separate
mount and `DT_DIR` otherwise, keeping the name `"vendor"` and the same
parent slot — while the old vendor node is renamed `"/vendor"`,
detached from its parent (it becomes its own root), and magic-mounted
after the entire system tree. -/
theorem c4_vendor_hoist (env : Env) (sep : Bool) (root v : Node)
    (l1 l2 : List Node) (buf2 : List String)
    (hch : root.children = l1 ++ v :: l2)
    (hv : v.name = "vendor") (hl1 : ∀ x ∈ l1, x.name ≠ "vendor") :
    vendor_hoist sep root =
      (root.setChildren
        (l1 ++ Node.mk none "vendor" (if sep then DT_LNK else DT_DIR) IS_VENDOR []
          :: l2),
       some (v.setName "/vendor")) ∧
    magic_stage env sep root buf2 =
      (magic_mount env ["/system"]
        (root.setChildren
          (l1 ++ Node.mk none "vendor" (if sep then DT_LNK else DT_DIR) IS_VENDOR []
            :: l2)) buf2).1 ++
      (magic_mount env ["/vendor"] (v.setName "/vendor")
        (magic_mount env ["/system"]
          (root.setChildren
            (l1 ++ Node.mk none "vendor" (if sep then DT_LNK else DT_DIR) IS_VENDOR []
              :: l2)) buf2).2).1 := by
  have h1 : vendor_hoist sep root =
      (root.setChildren
        (l1 ++ Node.mk none "vendor" (if sep then DT_LNK else DT_DIR) IS_VENDOR []
          :: l2),
       some (v.setName "/vendor")) := by
    unfold vendor_hoist
    rw [hch, hoist_children_spec sep l1 l2 v hv hl1]
  refine ⟨h1, ?_⟩
  unfold magic_stage
  rw [h1]

/-- Witness for C4: a root whose single child is a vendor subtree
contributed by module A, with vendor on a separate partition. -/
theorem c4_vendor_hoist_witness :
    (Node.mk none "/system" 0 IS_INTER
        [Node.mk (some "A") "vendor" DT_DIR IS_INTER []]).children =
      [] ++ Node.mk (some "A") "vendor" DT_DIR IS_INTER [] :: [] ∧
    (Node.mk (some "A") "vendor" DT_DIR IS_INTER []).name = "vendor" ∧
    vendor_hoist true
        (Node.mk none "/system" 0 IS_INTER
          [Node.mk (some "A") "vendor" DT_DIR IS_INTER []]) =
      ((Node.mk none "/system" 0 IS_INTER
          [Node.mk (some "A") "vendor" DT_DIR IS_INTER []]).setChildren
        ([] ++ Node.mk none "vendor" (if true then DT_LNK else DT_DIR) IS_VENDOR []
          :: []),
       some ((Node.mk (some "A") "vendor" DT_DIR IS_INTER []).setName "/vendor")) :=
  ⟨rfl, rfl,
    (c4_vendor_hoist envC2 true
      (Node.mk none "/system" 0 IS_INTER
        [Node.mk (some "A") "vendor" DT_DIR IS_INTER []])
      (Node.mk (some "A") "vendor" DT_DIR IS_INTER []) [] [] []
      rfl rfl (by simp)).1⟩

/-! ## C2 -/

/-- The status discipline `construct_tree` maintains: statuses drawn
from {0, `INTER`, `INTER|SKEL`, `MODULE`}, and only nodes that were
recursed into (hence `INTER`-flagged) own children. -/
inductive InvS : Node → Prop where
  | mk (m : Option String) (nm : String) (t s : Nat) (cs : List Node)
      (hs : s = 0 ∨ s = IS_INTER ∨ s = IS_INTER ||| IS_SKEL ∨ s = IS_MODULE)
      (hne : cs ≠ [] → s = IS_INTER ∨ s = IS_INTER ||| IS_SKEL)
      (hcs : ∀ c ∈ cs, InvS c) :
      InvS (Node.mk m nm t s cs)

theorem InvS.status_cases {n : Node} (h : InvS n) :
    n.status = 0 ∨ n.status = IS_INTER ∨ n.status = IS_INTER ||| IS_SKEL ∨
      n.status = IS_MODULE := by
  cases h with
  | mk m nm t s cs hs hne hcs => exact hs

theorem InvS.children_inter {n : Node} (h : InvS n) (hne : n.children ≠ []) :
    n.status = IS_INTER ∨ n.status = IS_INTER ||| IS_SKEL := by
  cases h with
  | mk m nm t s cs hs hne' hcs => exact hne' hne

theorem InvS.child {n : Node} (h : InvS n) {c : Node} (hc : c ∈ n.children) :
    InvS c := by
  cases h with
  | mk m nm t s cs hs hne hcs => exact hcs c hc

theorem InvS.of_inter {n : Node}
    (hs : n.status = IS_INTER ∨ n.status = IS_INTER ||| IS_SKEL)
    (hcs : ∀ c ∈ n.children, InvS c) : InvS n := by
  cases n with
  | mk m nm t s cs =>
    refine InvS.mk m nm t s cs ?_ (fun _ => hs) hcs
    rcases hs with h | h
    · exact Or.inr (Or.inl h)
    · exact Or.inr (Or.inr (Or.inl h))

theorem InvS.leaf (m : Option String) (nm : String) (t s : Nat)
    (hs : s = 0 ∨ s = IS_INTER ∨ s = IS_INTER ||| IS_SKEL ∨ s = IS_MODULE) :
    InvS (Node.mk m nm t s []) :=
  InvS.mk m nm t s [] hs (fun h => absurd rfl h)
    (fun c hc => absurd hc (List.not_mem_nil c))

theorem InvS_setChildren {P : Node}
    (hs : P.status = IS_INTER ∨ P.status = IS_INTER ||| IS_SKEL)
    (cs : List Node) (hcs : ∀ c ∈ cs, InvS c) :
    InvS (P.setChildren cs) ∧
      ((P.setChildren cs).status = IS_INTER ∨
       (P.setChildren cs).status = IS_INTER ||| IS_SKEL) := by
  have h1 : (P.setChildren cs).status = P.status := Node.setChildren_status P cs
  refine ⟨InvS.of_inter (by rw [h1]; exact hs) ?_, by rw [h1]; exact hs⟩
  rw [Node.setChildren_children]
  exact hcs

theorem P1_facts {parent : Node} (hI : InvS parent)
    (hstp : parent.status = IS_INTER ∨ parent.status = IS_INTER ||| IS_SKEL)
    (b : Bool) :
    InvS (if b then parent.setStatus (parent.status ||| IS_SKEL) else parent) ∧
    ((if b then parent.setStatus (parent.status ||| IS_SKEL) else parent).status =
        IS_INTER ∨
     (if b then parent.setStatus (parent.status ||| IS_SKEL) else parent).status =
        IS_INTER ||| IS_SKEL) ∧
    (if b then parent.setStatus (parent.status ||| IS_SKEL) else parent).children =
      parent.children := by
  by_cases hb : b = true
  · rw [if_pos hb]
    have hch := Node.setStatus_children parent (parent.status ||| IS_SKEL)
    have hss := Node.setStatus_status parent (parent.status ||| IS_SKEL)
    have hor : parent.status ||| IS_SKEL = IS_INTER ||| IS_SKEL := by
      rcases hstp with h | h <;> rw [h] <;> decide
    refine ⟨?_, ?_, hch⟩
    · apply InvS.of_inter
      · rw [hss, hor]
        exact Or.inr rfl
      · rw [hch]
        intro c hc
        exact hI.child hc
    · rw [hss, hor]
      exact Or.inr rfl
  · rw [if_neg hb]
    exact ⟨hI, hstp, rfl⟩

theorem ret_inter_of_guard {ret : Node} (hI : InvS ret)
    (hg : (ret.status &&& (IS_SKEL ||| IS_INTER) != 0) = true) :
    ret.status = IS_INTER ∨ ret.status = IS_INTER ||| IS_SKEL := by
  rcases hI.status_cases with h | h | h | h
  · rw [h] at hg
    exact absurd hg (by decide)
  · exact Or.inl h
  · exact Or.inr h
  · rw [h] at hg
    exact absurd hg (by decide)

theorem setChild_insert_InvS (name : String) {cs : List Node} {nd ret2 : Node}
    (hcs : ∀ c ∈ cs, InvS c) (hnd : InvS nd) (hret2 : InvS ret2) :
    ∀ x ∈ setChild (insert_child cs nd).1 name ret2, InvS x := by
  intro x hx
  rcases mem_setChild hx with hx' | rfl
  · rcases mem_insert_child hx' with h | rfl
    · exact hcs x h
    · exact hnd
  · exact hret2

theorem construct_tree_InvS (env : Env) (md : String) :
    ∀ (fuel : Nat) (pn : String) (pp : List String) (mfs : List FSEnt)
      (parent : Node), sizeOf mfs ≤ fuel → InvS parent →
      (parent.status = IS_INTER ∨ parent.status = IS_INTER ||| IS_SKEL) →
      InvS (construct_tree env md pn pp mfs parent) ∧
        ((construct_tree env md pn pp mfs parent).status = IS_INTER ∨
         (construct_tree env md pn pp mfs parent).status = IS_INTER ||| IS_SKEL) := by
  intro fuel
  induction fuel with
  | zero =>
    intro pn pp mfs parent hsz
    exfalso
    cases mfs <;> simp at hsz
  | succ k ih =>
    intro pn pp mfs parent hsz hI hst
    cases mfs with
    | nil =>
      rw [construct_tree]
      exact ⟨hI, hst⟩
    | cons e rest =>
      cases e with
      | mk name dtype children =>
        have hszc : sizeOf children ≤ k ∧ sizeOf rest ≤ k := by
          simp only [List.cons.sizeOf_spec, FSEnt.mk.sizeOf_spec] at hsz
          omega
        by_cases hskip : (name == "." || name == "..") = true
        · rw [construct_tree, if_pos hskip]
          exact ih pn pp rest parent hszc.2 hI hst
        · rw [construct_tree, if_neg hskip]
          have hP1 := P1_facts hI hst (clone_decision env pn pp name dtype)
          have hnd : InvS (Node.mk (some md) name dtype
              (entry_status (clone_decision env pn pp name dtype) dtype
                (hasReplace children)) []) := by
            apply InvS.leaf
            rcases entry_status_mem (clone_decision env pn pp name dtype) dtype
              (hasReplace children) with h | h | h <;> rw [h] <;> simp
          have hcsI : ∀ c ∈ (if clone_decision env pn pp name dtype then
              parent.setStatus (parent.status ||| IS_SKEL) else parent).children,
              InvS c := by
            rw [hP1.2.2]
            intro c hc
            exact hI.child hc
          have hretI : InvS (insert_child
              (if clone_decision env pn pp name dtype then
                parent.setStatus (parent.status ||| IS_SKEL) else parent).children
              (Node.mk (some md) name dtype
                (entry_status (clone_decision env pn pp name dtype) dtype
                  (hasReplace children)) [])).2 := by
            rcases mem_insert_child (insert_child_snd_mem _ _) with h | h
            · exact hcsI _ h
            · rw [h]
              exact hnd
          have hret2I : InvS (if ((insert_child
              (if clone_decision env pn pp name dtype then
                parent.setStatus (parent.status ||| IS_SKEL) else parent).children
              (Node.mk (some md) name dtype
                (entry_status (clone_decision env pn pp name dtype) dtype
                  (hasReplace children)) [])).2.status &&&
                (IS_SKEL ||| IS_INTER) != 0 &&
              (dtype == DT_DIR)) = true then
              construct_tree env md name (pp ++ [name]) children
                (insert_child
                  (if clone_decision env pn pp name dtype then
                    parent.setStatus (parent.status ||| IS_SKEL) else parent).children
                  (Node.mk (some md) name dtype
                    (entry_status (clone_decision env pn pp name dtype) dtype
                      (hasReplace children)) [])).2
            else (insert_child
              (if clone_decision env pn pp name dtype then
                parent.setStatus (parent.status ||| IS_SKEL) else parent).children
              (Node.mk (some md) name dtype
                (entry_status (clone_decision env pn pp name dtype) dtype
                  (hasReplace children)) [])).2) := by
            by_cases hg : ((insert_child
                (if clone_decision env pn pp name dtype then
                  parent.setStatus (parent.status ||| IS_SKEL) else parent).children
                (Node.mk (some md) name dtype
                  (entry_status (clone_decision env pn pp name dtype) dtype
                    (hasReplace children)) [])).2.status &&&
                  (IS_SKEL ||| IS_INTER) != 0 &&
                (dtype == DT_DIR)) = true
            · rw [if_pos hg]
              have hg1 : ((insert_child
                  (if clone_decision env pn pp name dtype then
                    parent.setStatus (parent.status ||| IS_SKEL) else parent).children
                  (Node.mk (some md) name dtype
                    (entry_status (clone_decision env pn pp name dtype) dtype
                      (hasReplace children)) [])).2.status &&&
                    (IS_SKEL ||| IS_INTER) != 0) = true :=
                (Bool.and_eq_true_iff.mp hg).1
              exact (ih name (pp ++ [name]) children _ hszc.1 hretI
                (ret_inter_of_guard hretI hg1)).1
            · rw [if_neg hg]
              exact hretI
          have hfinal := InvS_setChildren hP1.2.1 _
            (setChild_insert_InvS name hcsI hnd hret2I)
          exact ih pn pp rest _ hszc.2 hfinal.1 hfinal.2

/-- Tree reachability: `Reach root n as` holds when `n` lies in the tree
rooted at `root` and `as` lists its proper ancestors, root first —
i.e. the chain of `parent` back-pointers read from the root. -/
inductive Reach : Node → Node → List Node → Prop where
  | here (n : Node) : Reach n n []
  | via {r c n : Node} {as : List Node} (hc : c ∈ r.children)
      (h : Reach c n as) : Reach r n (r :: as)

theorem Reach.invS {root n : Node} {as : List Node} (h : Reach root n as)
    (hI : InvS root) : InvS n := by
  induction h with
  | here => exact hI
  | via hc h ih => exact ih (hI.child hc)

theorem Reach.ancestors_inter {root n : Node} {as : List Node}
    (h : Reach root n as) (hI : InvS root) :
    ∀ a ∈ as, a.status &&& IS_INTER ≠ 0 := by
  induction h with
  | here =>
    intro a ha
    simp at ha
  | via hc h ih =>
    intro a ha
    rcases List.mem_cons.mp ha with rfl | ha'
    · have hne : a.children ≠ [] := by
        intro hnil
        rw [hnil] at hc
        simp at hc
      rcases hI.children_inter hne with h' | h' <;> rw [h'] <;> decide
    · exact ih (hI.child hc) a ha'

theorem sysRoot0_InvS : InvS sysRoot0 :=
  InvS.leaf none "/system" 0 IS_INTER (Or.inr (Or.inl rfl))

theorem build_modules_InvS (env : Env) (mods : List (String × List FSEnt)) :
    ∀ root : Node, InvS root →
      (root.status = IS_INTER ∨ root.status = IS_INTER ||| IS_SKEL) →
      InvS (build_modules env mods root) ∧
        ((build_modules env mods root).status = IS_INTER ∨
         (build_modules env mods root).status = IS_INTER ||| IS_SKEL) := by
  induction mods with
  | nil =>
    intro root h hs
    exact ⟨h, hs⟩
  | cons m rest ih =>
    intro root h hs
    have hstep := construct_tree_InvS env m.1 (sizeOf m.2) root.name ["/system"]
      m.2 root (Nat.le_refl _) h hs
    exact ih _ hstep.1 hstep.2

/-- C2 (amended).  In every tree produced by `construct_tree` over any
modules and live contents, a node whose status contains `IS_SKEL` also
carries `IS_INTER`, and every proper ancestor up to the root carries
`IS_INTER` — the `|=` propagation reaches only the immediate parent of a
cloned entry, so the ancestors are plain intermediate (`INTER`) nodes,
not `SKEL`/`MODULE` ones. -/
theorem c2_skel_ancestors (env : Env) (mods : List (String × List FSEnt))
    (n : Node) (as : List Node)
    (hr : Reach (build_modules env mods sysRoot0) n as)
    (hskel : n.status &&& IS_SKEL ≠ 0) :
    (n.status &&& IS_INTER ≠ 0) ∧ ∀ a ∈ as, a.status &&& IS_INTER ≠ 0 := by
  have hroot := build_modules_InvS env mods sysRoot0 sysRoot0_InvS (Or.inl rfl)
  constructor
  · have hn := hr.invS hroot.1
    rcases hn.status_cases with h | h | h | h <;> rw [h] at hskel ⊢
    · exact absurd rfl hskel
    · exact absurd rfl hskel
    · decide
    · exact absurd rfl hskel
  · exact hr.ancestors_inter hroot.1

/-- Witness for C2: in the concrete tree `treeC2`, `etc` has `SKEL` and
the root ancestor indeed carries `INTER`. -/
theorem c2_skel_ancestors_witness :
    c2_etc.status &&& IS_SKEL ≠ 0 ∧
    Reach treeC2 c2_etc [treeC2] ∧
    c2_etc.status &&& IS_INTER ≠ 0 ∧
    treeC2.status &&& IS_INTER ≠ 0 := by
  have ht : treeC2 = Node.mk none "/system" 0 IS_INTER [c2_etc] := by
    simp [treeC2, build_modules, construct_tree, clone_decision, entry_status,
      hasReplace, insert_child, setChild, sysRoot0, envC2, fsC2, c2_etc,
      Node.setStatus, Node.setChildren, Node.children, Node.status, Node.name,
      FSEnt.name, FSEnt.dtype, FSEnt.children,
      DT_DIR, DT_REG, DT_LNK, IS_INTER, IS_SKEL, IS_MODULE]
  have hskel : c2_etc.status &&& IS_SKEL ≠ 0 := by decide
  have hreach : Reach treeC2 c2_etc [treeC2] := by
    refine Reach.via ?_ (Reach.here _)
    rw [ht]
    exact List.mem_singleton.mpr rfl
  have h := c2_skel_ancestors envC2 [("A", fsC2)] c2_etc [treeC2] hreach hskel
  exact ⟨hskel, hreach, h.1, h.2 treeC2 (List.mem_singleton.mpr rfl)⟩

/-- Counterexample for C2 as stated: `etc` in `treeC2` has status
containing `SKEL`, but its ancestor — the `/system` root — has status
`IS_INTER`, which neither contains `SKEL` or `MODULE` nor equals
either. -/
theorem c2_counterexample :
    Reach treeC2 c2_etc [treeC2] ∧
    c2_etc.status &&& IS_SKEL ≠ 0 ∧
    treeC2.status &&& (IS_SKEL ||| IS_MODULE) = 0 ∧
    treeC2.status ≠ IS_SKEL ∧ treeC2.status ≠ IS_MODULE := by
  have ht : treeC2 = Node.mk none "/system" 0 IS_INTER [c2_etc] := by
    simp [treeC2, build_modules, construct_tree, clone_decision, entry_status,
      hasReplace, insert_child, setChild, sysRoot0, envC2, fsC2, c2_etc,
      Node.setStatus, Node.setChildren, Node.children, Node.status, Node.name,
      FSEnt.name, FSEnt.dtype, FSEnt.children,
      DT_DIR, DT_REG, DT_LNK, IS_INTER, IS_SKEL, IS_MODULE]
  refine ⟨?_, by decide, ?_, ?_, ?_⟩
  · refine Reach.via ?_ (Reach.here _)
    rw [ht]
    exact List.mem_singleton.mpr rfl
  · rw [ht]
    decide
  · rw [ht]
    decide
  · rw [ht]
    decide

/-! ## C8 -/

theorem simple_mount_bind_exists (env : Env) :
    ∀ (fuel : Nat) (path : List String) (es : List FSEnt), sizeOf es ≤ fuel →
      ∀ a ∈ simple_mount env path es, ∀ s t, a = Act.bind_mount s t →
        env.liveExists t = true := by
  intro fuel
  induction fuel with
  | zero =>
    intro path es hsz
    exfalso
    cases es <;> simp at hsz
  | succ k ih =>
    intro path es hsz a ha s t hat
    cases es with
    | nil =>
      rw [simple_mount] at ha
      simp at ha
    | cons e rest =>
      cases e with
      | mk name dtype children =>
        have hszc : sizeOf children ≤ k ∧ sizeOf rest ≤ k := by
          simp only [List.cons.sizeOf_spec, FSEnt.mk.sizeOf_spec] at hsz
          omega
        rw [simple_mount] at ha
        by_cases h1 : (name == "." || name == "..") = true
        · rw [if_pos h1] at ha
          exact ih path rest hszc.2 a ha s t hat
        · rw [if_neg h1] at ha
          by_cases h2 : env.liveExists (path ++ [name]) = true
          · rw [if_neg (by simp [h2])] at ha
            by_cases h3 : (dtype == DT_DIR) = true
            · rw [if_pos h3] at ha
              rcases List.mem_append.mp ha with h' | h'
              · exact ih (path ++ [name]) children hszc.1 a h' s t hat
              · exact ih path rest hszc.2 a h' s t hat
            · rw [if_neg h3] at ha
              by_cases h4 : (dtype == DT_REG) = true
              · rw [if_pos h4] at ha
                rcases List.mem_cons.mp ha with rfl | ha'
                · simp at hat
                · rcases List.mem_cons.mp ha' with rfl | ha''
                  · have ht : path ++ [name] = t := by
                      injection hat with hs' ht'
                    rw [← ht]
                    exact h2
                  · exact ih path rest hszc.2 a ha'' s t hat
              · rw [if_neg h4] at ha
                exact ih path rest hszc.2 a ha s t hat
          · rw [if_pos (by simp [h2])] at ha
            exact ih path rest hszc.2 a ha s t hat

theorem simple_mount_reg_mounted (env : Env) (path : List String)
    (es : List FSEnt) (name : String) (children : List FSEnt)
    (hmem : FSEnt.mk name DT_REG children ∈ es)
    (hn : (name == "." || name == "..") = false)
    (hex : env.liveExists (path ++ [name]) = true) :
    Act.bind_mount ("CACHEMOUNT" :: (path ++ [name])) (path ++ [name]) ∈
      simple_mount env path es ∧
    Act.clone_attr (path ++ [name]) ("CACHEMOUNT" :: (path ++ [name])) ∈
      simple_mount env path es := by
  induction es with
  | nil => simp at hmem
  | cons e rest ih =>
    cases e with
    | mk en et ec =>
      rw [simple_mount]
      rcases List.mem_cons.mp hmem with heq | hmem'
      · injection heq with hq1 hq2 hq3
        subst hq1
        subst hq2
        rw [if_neg (by rw [hn]; exact Bool.false_ne_true),
          if_neg (by simp [hex]), if_neg (by decide), if_pos (by decide)]
        exact ⟨List.mem_cons_of_mem _ (List.mem_cons_self _ _),
          List.mem_cons_self _ _⟩
      · have ihr := ih hmem'
        by_cases h1 : (en == "." || en == "..") = true
        · rw [if_pos h1]
          exact ihr
        · rw [if_neg h1]
          by_cases h2 : env.liveExists (path ++ [en]) = true
          · rw [if_neg (by simp [h2])]
            by_cases h3 : (et == DT_DIR) = true
            · rw [if_pos h3]
              exact ⟨List.mem_append_right _ ihr.1,
                List.mem_append_right _ ihr.2⟩
            · rw [if_neg h3]
              by_cases h4 : (et == DT_REG) = true
              · rw [if_pos h4]
                exact ⟨List.mem_cons_of_mem _ (List.mem_cons_of_mem _ ihr.1),
                  List.mem_cons_of_mem _ (List.mem_cons_of_mem _ ihr.2)⟩
              · rw [if_neg h4]
                exact ihr
          · rw [if_pos (by simp [h2])]
            exact ihr

/-- C8 (confirmed).  `simple_mount` bind-mounts only over live paths
that already exist (it never creates paths); a staged regular file at a
walked directory level is bind-mounted over the live path if and only
if the corresponding live file exists, and when it is mounted the live
file's attributes are first cloned onto the staged file. -/
theorem c8_simple_mount (env : Env) (path : List String) (es : List FSEnt) :
    (∀ a ∈ simple_mount env path es, ∀ s t, a = Act.bind_mount s t →
      env.liveExists t = true) ∧
    (∀ name children, FSEnt.mk name DT_REG children ∈ es →
      (name == "." || name == "..") = false →
      (Act.bind_mount ("CACHEMOUNT" :: (path ++ [name])) (path ++ [name]) ∈
          simple_mount env path es ↔
        env.liveExists (path ++ [name]) = true)) ∧
    (∀ name children, FSEnt.mk name DT_REG children ∈ es →
      (name == "." || name == "..") = false →
      env.liveExists (path ++ [name]) = true →
      Act.clone_attr (path ++ [name]) ("CACHEMOUNT" :: (path ++ [name])) ∈
        simple_mount env path es) := by
  refine ⟨?_, ?_, ?_⟩
  · exact fun a ha s t hat =>
      simple_mount_bind_exists env (sizeOf es) path es (Nat.le_refl _) a ha s t hat
  · intro name children hmem hn
    constructor
    · intro hb
      exact simple_mount_bind_exists env (sizeOf es) path es (Nat.le_refl _)
        _ hb _ _ rfl
    · intro hex
      exact (simple_mount_reg_mounted env path es name children hmem hn hex).1
  · intro name children hmem hn hex
    exact (simple_mount_reg_mounted env path es name children hmem hn hex).2

/-- Witness for C8: staged regular file `hosts` under
`CACHEMOUNT/system/etc`, with the live file present. -/
theorem c8_simple_mount_witness :
    FSEnt.mk "hosts" DT_REG [] ∈ [FSEnt.mk "hosts" DT_REG []] ∧
    (("hosts" : String) == "." || ("hosts" : String) == "..") = false ∧
    (Act.bind_mount ("CACHEMOUNT" :: (["/system", "etc"] ++ ["hosts"]))
        (["/system", "etc"] ++ ["hosts"]) ∈
      simple_mount envAB ["/system", "etc"] [FSEnt.mk "hosts" DT_REG []] ↔
      envAB.liveExists (["/system", "etc"] ++ ["hosts"]) = true) :=
  ⟨List.mem_singleton.mpr rfl, rfl,
    (c8_simple_mount envAB ["/system", "etc"] [FSEnt.mk "hosts" DT_REG []]).2.1
      "hosts" [] (List.mem_singleton.mpr rfl) rfl⟩

/-- Counterexample for C9 as stated: a module FIFO entry whose live
path exists and is not a symlink keeps the `xcalloc` status 0 in
`construct_tree` (lines 253, 275-292 assign no status), and the mirror
dummy for the same name — status `IS_DUMMY = 1 > 0` — then displaces
it via `c->status > e->status` (line 221): the dummy destroys an
existing child, and a `DUMMY` child bears a module-contributed name. -/
theorem c9_counterexample :
    treeC9.children = [Node.mk (some "A") "fifo" DT_FIFO 0 []] ∧
    insert_dummies treeC9.children [("fifo", DT_FIFO)] =
      [Node.mk none "fifo" DT_FIFO IS_DUMMY []] ∧
    Node.mk (some "A") "fifo" DT_FIFO 0 [] ∉
      insert_dummies treeC9.children [("fifo", DT_FIFO)] ∧
    (Node.mk none "fifo" DT_FIFO IS_DUMMY []).status = IS_DUMMY ∧
    (Node.mk none "fifo" DT_FIFO IS_DUMMY []).name =
      (Node.mk (some "A") "fifo" DT_FIFO 0 []).name := by
  have ht : treeC9 = Node.mk none "/system" 0 IS_INTER
      [Node.mk (some "A") "fifo" DT_FIFO 0 []] := by
    simp [treeC9, build_modules, construct_tree, clone_decision, entry_status,
      hasReplace, insert_child, setChild, sysRoot0, envC9, fsC9,
      Node.setStatus, Node.setChildren, Node.children, Node.status, Node.name,
      FSEnt.name, FSEnt.dtype, FSEnt.children,
      DT_DIR, DT_REG, DT_LNK, DT_FIFO, IS_INTER, IS_SKEL, IS_MODULE]
  have h2 : insert_dummies treeC9.children [("fifo", DT_FIFO)] =
      [Node.mk none "fifo" DT_FIFO IS_DUMMY []] := by
    rw [ht]
    rfl
  refine ⟨by rw [ht]; rfl, h2, ?_, rfl, rfl⟩
  rw [h2]
  intro hmem
  simp at hmem
